import Mathlib

/-!
# stonks: the Slack event handler (`slack/handler.go`, `market/fake.go`)

A shallow embedding of the event intake and dispatch pipeline of
`nanzhong/stonks`, and theorems about it.

Go strings are Lean `String`s (valid UTF-8 text, which is what the JSON decoder
hands to the handler).  Go `error` values are the inductive `GoError`.  The
collaborators the handler only calls (the Slack signature verifier, the event
parser, the market backend, the Slack client) are fields of records passed to the
handler, and every call made to them is recorded in a trace.
-/

namespace Stonks

/-! ## Symbol extraction (`handler.go` lines 53, 212-222) -/

/-- The character class `[a-z]` of `symbolRegexp` under the flag `(?i)`.
Go's `regexp/syntax` closes a class under simple case folding
(`appendFoldedRange`, which follows the orbits of `unicode.SimpleFold`), so next
to `a-z` and `A-Z` the class holds the two other characters whose orbit meets
`a-z`: U+017F (long s, orbit of `s`) and U+212A (Kelvin sign, orbit of `k`). -/
def classAZ (c : Char) : Bool :=
  (97 ≤ c.toNat && c.toNat ≤ 122) || (65 ≤ c.toNat && c.toNat ≤ 90)
    || c.toNat == 0x17F || c.toNat == 0x212A

/-- The negated class `[^a-z]` under `(?i)`: the complement of the folded class
(with Go's default flags a negated class also matches a newline). -/
def classNotAZ (c : Char) : Bool := !classAZ c

/-- The tail `[^a-z]*$` of `symbolRegexp`: the star takes characters of the
negated class and `$` (no `m` flag) only holds at the end of the text. -/
def matchTail : List Char → Bool
  | [] => true
  | c :: cs => classNotAZ c && matchTail cs

/-- Match `[a-z]{n}` at the start of the text: the `n` characters consumed and
the remaining text, when the first `n` characters are all in the class. -/
def matchRepeat : Nat → List Char → Option (List Char × List Char)
  | 0, cs => some ([], cs)
  | _ + 1, [] => none
  | n + 1, c :: cs =>
    if classAZ c then
      match matchRepeat n cs with
      | some (g, rest) => some (c :: g, rest)
      | none => none
    else none

/-- One alternative of the bounded repetition: the group takes exactly `n`
class characters and the tail must match what is left. -/
def matchWith (n : Nat) (text : List Char) : Option (List Char) :=
  match matchRepeat n text with
  | some (g, rest) => if matchTail rest then some g else none
  | none => none

/-- The submatch 1 found by `symbolRegexp.FindStringSubmatch(token)` for
`symbolRegexp = (?i)^([a-z]{3,4})[^a-z]*$`, or `none` when there is no match.
The pattern is anchored at both ends, so the only choice is how many characters
the greedy `{3,4}` takes: four is tried before three (leftmost-first). -/
def symbolRegexpFind (token : String) : Option String :=
  match matchWith 4 token.data with
  | some g => some (String.mk g)
  | none =>
    match matchWith 3 token.data with
    | some g => some (String.mk g)
    | none => none

/-- Lines 212-222: the loop appends `matches[1]` for every token that matches
and skips the others. -/
def filterPossibleSymbols (tokens : List String) : List String :=
  tokens.foldl
    (fun possible token =>
      match symbolRegexpFind token with
      | none => possible
      | some m => possible ++ [m])
    []

/-! ## Go library values used by the handler -/

/-- An error made outside the handler's package, as far as the handler can tell
such errors apart: the two sentinels of the Slack library it switches on, or any
other error, with its message.  None of them is an `*httpError`, which is a type
of the handler's package, so `errors.As` finds none on their chains. -/
inductive LibError where
  | errMissingHeaders : LibError
  | errExpiredTimestamp : LibError
  | other (msg : String) : LibError
  deriving DecidableEq, Repr

/-- The message of a library error. -/
def LibError.Error : LibError → String
  | .errMissingHeaders => "missing headers"
  | .errExpiredTimestamp => "timestamp is too old"
  | .other msg => msg

/-- Go `error` values in the handler: a library error, an error made by
`errors.New` or by `fmt.Errorf` without `%w`, an error made by `fmt.Errorf` with
`%w` (the formatted message and the wrapped error, as in `fmt.wrapError`), and
the handler's own `*httpError` (lines 25-28). -/
inductive GoError where
  | lib (e : LibError) : GoError
  | errorString (msg : String) : GoError
  | wrapError (msg : String) (err : GoError) : GoError
  | httpError (err : GoError) (statusCode : Nat) : GoError
  deriving DecidableEq, Repr

/-- The method `Error()`; for `*httpError` it is lines 38-40. -/
def GoError.Error : GoError → String
  | .lib e => e.Error
  | .errorString msg => msg
  | .wrapError msg _ => msg
  | .httpError err statusCode => err.Error ++ ": " ++ Nat.repr statusCode

/-- Lines 30-32. -/
def newHTTPError (err : GoError) (status : Nat) : GoError :=
  .httpError err status

/-- The call `fmt.Errorf("<message>: %w", err)`. -/
def fmtErrorfWrap (message : String) (err : GoError) : GoError :=
  .wrapError (message ++ ": " ++ err.Error) err

/-- Lines 34-36. -/
def newHTTPErrorWithMessage (err : GoError) (message : String) (status : Nat) : GoError :=
  .httpError (fmtErrorfWrap message err) status

/-- The call `errors.As(err, &he)` for `he *httpError`: the first `*httpError`
on the `Unwrap` chain of `err`. -/
def errorsAsHTTPError : GoError → Option (GoError × Nat)
  | .httpError err statusCode => some (err, statusCode)
  | .wrapError _ err => errorsAsHTTPError err
  | _ => none

/-- Lines 20-23. -/
structure httpErrorResponse where
  StatusCode : Nat
  Error : String
  deriving DecidableEq, Repr

def hexDigit (n : Nat) : Char := "0123456789abcdef".data.getD n '0'

/-- How `encoding/json` writes one character of a string, with HTML escaping
on (the default of `json.Encoder`). -/
def jsonEscapeChar (c : Char) : List Char :=
  if c = '"' then ['\\', '"']
  else if c = '\\' then ['\\', '\\']
  else if c = '\n' then ['\\', 'n']
  else if c = '\r' then ['\\', 'r']
  else if c = '\t' then ['\\', 't']
  else if c.toNat < 32 ∨ c = '<' ∨ c = '>' ∨ c = '&' then
    ['\\', 'u', '0', '0', hexDigit (c.toNat / 16), hexDigit (c.toNat % 16)]
  else if c.toNat = 0x2028 ∨ c.toNat = 0x2029 then
    ['\\', 'u', '2', '0', '2', hexDigit (c.toNat % 16)]
  else [c]

/-- A Go string as a JSON string literal. -/
def jsonString (s : String) : String :=
  "\"" ++ String.mk (s.data.flatMap jsonEscapeChar) ++ "\""

/-- The text `json.NewEncoder(w).Encode(&httpErrorResponse ...)` writes: the
object followed by a newline. -/
def encodeErrorResponse (e : httpErrorResponse) : String :=
  "\x7b\"status_code\":" ++ Nat.repr e.StatusCode ++ ",\"error\":" ++ jsonString e.Error ++ "\x7d\n"

/-- The text `json.NewEncoder(w).Encode(&slackevents.ChallengeResponse ...)`
writes: the field has no tag, so its key is `Challenge`. -/
def encodeChallengeResponse (challenge : String) : String :=
  "\x7b\"Challenge\":" ++ jsonString challenge ++ "\x7d\n"

/-- What an `http.ResponseWriter` has received, as `httptest.ResponseRecorder`
shows it: `code` is `none` until the header is written. -/
structure ResponseWriter where
  header : List (String × String) := []
  code : Option Nat := none
  body : String := ""
  deriving DecidableEq, Repr

def ResponseWriter.headerSet (w : ResponseWriter) (k v : String) : ResponseWriter :=
  { w with header := (k, v) :: w.header.filter (fun p => p.1 != k) }

/-- The call `w.WriteHeader(status)`: only the first one counts. -/
def ResponseWriter.WriteHeader (w : ResponseWriter) (status : Nat) : ResponseWriter :=
  match w.code with
  | none => { w with code := some status }
  | some _ => w

/-- The call `w.Write(b)`: writes the header with 200 when none was written. -/
def ResponseWriter.Write (w : ResponseWriter) (b : String) : ResponseWriter :=
  { w.WriteHeader 200 with body := w.body ++ b }

/-- The status the client sees. -/
def ResponseWriter.status (w : ResponseWriter) : Nat := w.code.getD 200

/-- Lines 46-51. -/
def httpErrorWriteResponse (err : GoError) (statusCode : Nat) (w : ResponseWriter) :
    ResponseWriter :=
  w.Write (encodeErrorResponse { StatusCode := statusCode, Error := err.Error })

/-- The function `unicode.IsSpace`. -/
def unicodeIsSpace (c : Char) : Bool :=
  let n := c.toNat
  (9 ≤ n && n ≤ 13) || n == 0x20 || n == 0x85 || n == 0xA0 || n == 0x1680
    || (0x2000 ≤ n && n ≤ 0x200A) || n == 0x2028 || n == 0x2029 || n == 0x202F
    || n == 0x205F || n == 0x3000

/-- The loop of `strings.Fields`: `cur` is the field being read, reversed. -/
def stringsFieldsAux (cur : List Char) : List Char → List String
  | [] => if cur.isEmpty then [] else [String.mk cur.reverse]
  | c :: cs =>
    if unicodeIsSpace c then
      if cur.isEmpty then stringsFieldsAux [] cs
      else String.mk cur.reverse :: stringsFieldsAux [] cs
    else stringsFieldsAux (c :: cur) cs

/-- The function `strings.Fields`: the maximal runs of non-space characters. -/
def stringsFields (s : String) : List String := stringsFieldsAux [] s.data

/-! ## The collaborators -/

/-- A `float64`, by its bit pattern; the handler only passes it to `fmt`. -/
structure Float64 where
  bits : Nat
  deriving DecidableEq, Repr

/-- The fields of `market.Quote` (an alias of `finance.Quote`) the handler reads. -/
structure Quote where
  Symbol : String
  ShortName : String
  RegularMarketPrice : Float64
  RegularMarketChange : Float64
  RegularMarketChangePercent : Float64
  deriving DecidableEq, Repr

/-- The interface `market.Backend` (`market.go`): `Quote` returns the quotes or an
error. -/
structure Backend where
  Quote : List String → Except LibError (List Quote)

/-- The type `market.FakeBackend` (`fake.go`). -/
structure FakeBackend where
  BaseQuote : Quote

/-- The method `FakeBackend.Quote` (`fake.go` lines 7-15): a copy of the base
quote for each symbol, with the symbol set. -/
def FakeBackend.Quote (f : FakeBackend) (symbols : List String) :
    Except LibError (List Stonks.Quote) :=
  .ok (symbols.foldl (fun quotes s => quotes ++ [{ f.BaseQuote with Symbol := s }]) [])

/-- A `FakeBackend` used as a `market.Backend`. -/
def FakeBackend.toBackend (f : FakeBackend) : Backend := { Quote := f.Quote }

/-- The type `slack.TextBlockObject`, as `slack.NewTextBlockObject` fills it. -/
structure TextBlockObject where
  type : String
  text : String
  emoji : Bool
  verbatim : Bool
  deriving DecidableEq, Repr

/-- The blocks the handler builds: `slack.NewSectionBlock(text, nil, nil)`,
`slack.NewHeaderBlock(text)` and `slack.NewDividerBlock()`. -/
inductive Block where
  | sectionBlock (text : TextBlockObject) : Block
  | headerBlock (text : TextBlockObject) : Block
  | dividerBlock : Block
  deriving DecidableEq, Repr

/-- The content option of a message: `slack.MsgOptionText(text, escape)` or
`slack.MsgOptionBlocks(blocks...)`. -/
inductive MsgContent where
  | text (text : String) (escape : Bool) : MsgContent
  | blocks (blocks : List Block) : MsgContent
  deriving DecidableEq, Repr

/-- One call of `slackClient.PostMessageContext`: the channel, the content, the
timestamp given to `slack.MsgOptionTS`, and whether `slack.MsgOptionBroadcast()`
is among the options. -/
structure PostMessage where
  channel : String
  content : MsgContent
  ts : String
  broadcast : Bool
  deriving DecidableEq, Repr

/-- The Slack client: the error (or none) of a call, which may depend on the
calls made before it. -/
structure SlackClient where
  PostMessageContext : List PostMessage → PostMessage → Option LibError

/-- The type `slack.SecretsVerifier`: `Write` feeds the body, `Ensure` checks the
signature of what was written. -/
structure SecretsVerifier where
  Write : String → Option LibError
  Ensure : String → Option LibError

/-- The type `slackevents.EventsAPIURLVerificationEvent`. -/
structure EventsAPIURLVerificationEvent where
  Token : String
  Challenge : String
  Type_ : String
  deriving DecidableEq, Repr

/-- The fields of `slackevents.AppMentionEvent` the handler reads. -/
structure AppMentionEvent where
  Text : String
  TimeStamp : String
  Channel : String
  deriving DecidableEq, Repr

/-- The dynamic type of `EventsAPIEvent.Data`. -/
inductive EventData where
  | urlVerification (ev : EventsAPIURLVerificationEvent) : EventData
  | other : EventData
  deriving DecidableEq, Repr

/-- The dynamic type of `EventsAPIInnerEvent.Data`. -/
inductive InnerEventData where
  | appMention (ev : AppMentionEvent) : InnerEventData
  | other : InnerEventData
  deriving DecidableEq, Repr

/-- The type `slackevents.EventsAPIInnerEvent`. -/
structure EventsAPIInnerEvent where
  Type_ : String
  Data : InnerEventData
  deriving DecidableEq, Repr

/-- The fields of `slackevents.EventsAPIEvent` the handler reads. -/
structure EventsAPIEvent where
  Type_ : String
  Data : EventData
  InnerEvent : EventsAPIInnerEvent
  deriving DecidableEq, Repr

/-- The library functions the handler calls and this development does not
unfold: `slack.NewSecretsVerifier(header, secret)`,
`slackevents.ParseEvent(body, OptionNoVerifyToken())`, and the text
`url.QueryEscape(fmt.Sprintf("*%.2f %+.2f (%+.2f%%)*", price, change, percent))`
computed from three floats. -/
structure Lib where
  NewSecretsVerifier : List (String × String) → String → Except LibError SecretsVerifier
  ParseEvent : String → Except LibError EventsAPIEvent
  quoteLine : Float64 → Float64 → Float64 → String

/-- An `*http.Request`, as far as the handler reads it: `Body` is what
`ioutil.ReadAll(r.Body)` returns and `URL` is `r.URL.String()`. -/
structure Request where
  Method : String
  URL : String
  Header : List (String × String)
  Body : Except LibError String

/-- Lines 55-61 (the logger writes to the trace). -/
structure eventHandler where
  signingSecret : String
  slackClient : SlackClient
  marketBackend : Backend

/-- A call the handler makes to a collaborator, in the order made. -/
inductive Call where
  | logPrintf (line : String) : Call
  | readAll : Call
  | newSecretsVerifier (secret : String) : Call
  | svWrite (body : String) : Call
  | svEnsure : Call
  | parseEvent (body : String) : Call
  | quote (symbols : List String) : Call
  | postMessage (msg : PostMessage) : Call
  deriving DecidableEq, Repr

/-- What one run of `ServeHTTP` leaves behind: the response, the calls made,
and whether it ended in a panic (a failed type assertion). -/
structure Outcome where
  w : ResponseWriter
  calls : List Call
  panicked : Bool
  deriving DecidableEq, Repr

/-! ## The handler (`handler.go` lines 73-210) -/

/-- Lines 196-210: log the error, then answer with the status of the first
`*httpError` on its chain, or with 500 when there is none. -/
def respondWithErr (w : ResponseWriter) (r : Request) (err : GoError) :
    ResponseWriter × List Call :=
  let log := Call.logPrintf (r.Method ++ " " ++ r.URL ++ " - responding with error: " ++ err.Error)
  match errorsAsHTTPError err with
  | some (heErr, heStatus) =>
    (httpErrorWriteResponse heErr heStatus (w.WriteHeader heStatus), [log])
  | none =>
    ((w.WriteHeader 500).Write (encodeErrorResponse { StatusCode := 500, Error := err.Error }),
      [log])

/-- Line 193: the call of `slackevents.ParseEvent`, its error seen as an `error`
of the handler. -/
def parseEvent (lib : Lib) (body : String) : Except GoError EventsAPIEvent :=
  match lib.ParseEvent body with
  | .ok event => .ok event
  | .error err => .error (.lib err)

/-- Lines 164-194: the event, or the error, together with the calls made. -/
def validateRequest (lib : Lib) (h : eventHandler) (r : Request) :
    Except GoError EventsAPIEvent × List Call :=
  if r.Method ≠ "POST" then
    (.error (newHTTPError (.errorString ("invalid method: " ++ r.Method)) 405), [])
  else
    match r.Body with
    | .error err => (.error (fmtErrorfWrap "reading request body" (.lib err)), [.readAll])
    | .ok body =>
      if h.signingSecret = "" then
        (parseEvent lib body, [.readAll, .parseEvent body])
      else
        match lib.NewSecretsVerifier r.Header h.signingSecret with
        | .error err =>
          (.error (fmtErrorfWrap "building slack secrets verifier" (.lib err)),
            [.readAll, .newSecretsVerifier h.signingSecret])
        | .ok sv =>
          match sv.Write body with
          | some err =>
            (.error (newHTTPErrorWithMessage (.lib err) "verifying signature" 500),
              [.readAll, .newSecretsVerifier h.signingSecret, .svWrite body])
          | none =>
            match sv.Ensure body with
            | some err =>
              (.error (newHTTPErrorWithMessage (.lib err) "verifying signature" 401),
                [.readAll, .newSecretsVerifier h.signingSecret, .svWrite body, .svEnsure])
            | none =>
              (parseEvent lib body,
                [.readAll, .newSecretsVerifier h.signingSecret, .svWrite body, .svEnsure,
                  .parseEvent body])

/-- Lines 117-137: the introductory section, then for the quote at index `i` a
header and a section, and a divider when `i` is not the last index. -/
def messageBlocks (lib : Lib) (quotes : List Quote) : List Block :=
  quotes.enum.foldl
    (fun messageBlocks iq =>
      let messageBlocks := messageBlocks ++
        [Block.headerBlock
          { type := "plain_text", text := iq.2.ShortName ++ " (" ++ iq.2.Symbol ++ ")",
            emoji := false, verbatim := false },
         Block.sectionBlock
          { type := "mrkdwn",
            text := lib.quoteLine iq.2.RegularMarketPrice iq.2.RegularMarketChange
              iq.2.RegularMarketChangePercent,
            emoji := false, verbatim := true }]
      if iq.1 ≠ quotes.length - 1 then messageBlocks ++ [Block.dividerBlock] else messageBlocks)
    [Block.sectionBlock
      { type := "mrkdwn", text := "Found the following quotes :chart_with_upwards_trend:",
        emoji := false, verbatim := false }]

/-- Lines 108-146: the reply, a fixed text for no quotes and blocks otherwise. -/
def replyMessage (lib : Lib) (m : AppMentionEvent) (quotes : List Quote) : PostMessage :=
  if quotes.length = 0 then
    { channel := m.Channel,
      content := .text "Sorry, I didn\x27t find any valid market symbols in your message. :cry:"
        false,
      ts := m.TimeStamp, broadcast := true }
  else
    { channel := m.Channel, content := .blocks (messageBlocks lib quotes), ts := m.TimeStamp,
      broadcast := true }

/-- Lines 149-154: the best effort message sent after a failed reply. -/
def apologyMessage (m : AppMentionEvent) : PostMessage :=
  { channel := m.Channel,
    content := .text "Sorry, I messed something up... Try again later :poop:" true,
    ts := m.TimeStamp, broadcast := true }

/-- Lines 108-158: post the reply; when that fails post the apology, whose
result is dropped, and answer 500; otherwise write the empty object. -/
def postReply (lib : Lib) (h : eventHandler) (w : ResponseWriter) (r : Request)
    (calls : List Call) (m : AppMentionEvent) (quotes : List Quote) : Outcome :=
  let reply := replyMessage lib m quotes
  match h.slackClient.PostMessageContext [] reply with
  | some err =>
    let _ := h.slackClient.PostMessageContext [reply] (apologyMessage m)
    let res := respondWithErr w r (newHTTPErrorWithMessage (.lib err) "responding to mention" 500)
    { w := res.1,
      calls := calls ++ [.postMessage reply, .postMessage (apologyMessage m)] ++ res.2,
      panicked := false }
  | none =>
    { w := w.Write "\x7b\x7d", calls := calls ++ [.postMessage reply], panicked := false }

/-- Lines 97-158: the mention branch. -/
def serveAppMention (lib : Lib) (h : eventHandler) (w : ResponseWriter) (r : Request)
    (calls : List Call) (m : AppMentionEvent) : Outcome :=
  let possibleSymbols := filterPossibleSymbols (stringsFields m.Text)
  if possibleSymbols.length ≠ 0 then
    match h.marketBackend.Quote possibleSymbols with
    | .error err =>
      let res := respondWithErr w r (newHTTPErrorWithMessage (.lib err) "getting quotes" 500)
      { w := res.1, calls := calls ++ [.quote possibleSymbols] ++ res.2, panicked := false }
    | .ok quotes => postReply lib h w r (calls ++ [.quote possibleSymbols]) m quotes
  else postReply lib h w r calls m []

/-- Lines 73-162. -/
def ServeHTTP (lib : Lib) (h : eventHandler) (r : Request) : Outcome :=
  let w := ({} : ResponseWriter).headerSet "Content-Type" "application/json"
  match validateRequest lib h r with
  | (.error err, calls) =>
    if err = .lib .errMissingHeaders ∨ err = .lib .errExpiredTimestamp then
      let res := respondWithErr w r (newHTTPError err 400)
      { w := res.1, calls := calls ++ res.2, panicked := false }
    else
      let res := respondWithErr w r (.wrapError ("validating request : " ++ err.Error) err)
      { w := res.1, calls := calls ++ res.2, panicked := false }
  | (.ok event, calls) =>
    if event.Type_ = "url_verification" then
      match event.Data with
      | .urlVerification verificationEvent =>
        { w := w.Write (encodeChallengeResponse verificationEvent.Challenge), calls := calls,
          panicked := false }
      | .other => { w := w, calls := calls, panicked := true }
    else if event.Type_ = "event_callback" then
      if event.InnerEvent.Type_ ≠ "app_mention" then
        let res := respondWithErr w r (newHTTPError (.errorString "unhandled event") 501)
        { w := res.1, calls := calls ++ res.2, panicked := false }
      else
        match event.InnerEvent.Data with
        | .appMention appMentionEvent => serveAppMention lib h w r calls appMentionEvent
        | .other => { w := w, calls := calls, panicked := true }
    else
      let res := respondWithErr w r (newHTTPError (.errorString "unhandled event") 501)
      { w := res.1, calls := calls ++ res.2, panicked := false }

/-! ## Specification-side notions -/

/-- A letter in the sense of the specification: `a-z` or `A-Z`. -/
def asciiLetter (c : Char) : Bool :=
  ('a' ≤ c && c ≤ 'z') || ('A' ≤ c && c ≤ 'Z')

/-- The letters of the specification together with the two characters that fold
to an ASCII letter: U+017F (long s) and U+212A (Kelvin sign). -/
def foldedLetter (c : Char) : Bool :=
  asciiLetter c || c == Char.ofNat 0x17F || c == Char.ofNat 0x212A

/-- In the words of the specification: `token` is `core`, which is 3 or 4
letters, followed by zero or more non-letters up to the end of the token. -/
def Qualifies (isLetter : Char → Bool) (token core : String) : Prop :=
  ∃ rest : List Char, token.data = core.data ++ rest
    ∧ (core.data.length = 3 ∨ core.data.length = 4)
    ∧ (∀ c ∈ core.data, isLetter c = true) ∧ (∀ c ∈ rest, isLetter c = false)

/-- In the words of the specification: the result has, in input order and with
duplicates kept, one entry per qualifying token, which is its leading letters,
and nothing for any other token. -/
def ExtractsSymbols (isLetter : Char → Bool) : Prop :=
  ∃ entry : String → Option String,
    (∀ token core, entry token = some core ↔ Qualifies isLetter token core)
      ∧ ∀ tokens, filterPossibleSymbols tokens = tokens.filterMap entry

/-! ## Reply blocks: specification side -/

/-- The introductory section block (lines 118-122). -/
def introBlock : Block :=
  .sectionBlock
    { type := "mrkdwn", text := "Found the following quotes :chart_with_upwards_trend:",
      emoji := false, verbatim := false }

/-- The header block of a quote: the display name and the symbol in brackets. -/
def quoteHeader (q : Quote) : Block :=
  .headerBlock
    { type := "plain_text", text := q.ShortName ++ " (" ++ q.Symbol ++ ")", emoji := false,
      verbatim := false }

/-- The section block of a quote: the numeric line. -/
def quoteSection (lib : Lib) (q : Quote) : Block :=
  .sectionBlock
    { type := "mrkdwn",
      text := lib.quoteLine q.RegularMarketPrice q.RegularMarketChange q.RegularMarketChangePercent,
      emoji := false, verbatim := true }

/-- In the words of the specification: for each quote in order a header block
and a section block, with a divider after each quote except the last. -/
def describedBlocks (lib : Lib) : List Quote → List Block
  | [] => []
  | [q] => [quoteHeader q, quoteSection lib q]
  | q :: q2 :: qs =>
    quoteHeader q :: quoteSection lib q :: Block.dividerBlock :: describedBlocks lib (q2 :: qs)

/-- No two neighbours are both dividers. -/
def NoAdjacentDividers (bs : List Block) : Prop :=
  List.Chain' (fun a b => ¬ (a = Block.dividerBlock ∧ b = Block.dividerBlock)) bs

/-! ## The handler: specification side -/

def Call.posted : Call → Option PostMessage
  | .postMessage msg => some msg
  | _ => none

def Call.quoted : Call → Option (List String)
  | .quote symbols => some symbols
  | _ => none

def Call.parsed : Call → Option String
  | .parseEvent body => some body
  | _ => none

/-- The outbound messages of a run, in order. -/
def Outcome.posts (o : Outcome) : List PostMessage := o.calls.filterMap Call.posted

/-- The symbol lists the backend was asked for during a run, in order. -/
def Outcome.quotes (o : Outcome) : List (List String) := o.calls.filterMap Call.quoted

/-- The bodies handed to the event parser during a run. -/
def Outcome.parses (o : Outcome) : List String := o.calls.filterMap Call.parsed

/-- The response writer as `ServeHTTP` has it after line 74. -/
def freshWriter : ResponseWriter :=
  ({} : ResponseWriter).headerSet "Content-Type" "application/json"

/-- The signature check passed: the body was read, the verifier was built, took
the body and accepted the signature. -/
def verified (lib : Lib) (h : eventHandler) (r : Request) : Bool :=
  match r.Body with
  | .error _ => false
  | .ok body =>
    match lib.NewSecretsVerifier r.Header h.signingSecret with
    | .error _ => false
    | .ok sv => (sv.Write body).isNone && (sv.Ensure body).isNone

/-- The delivery is a mention: `validateRequest` returns a callback event whose
inner event is the app mention `m`. -/
def IsMention (lib : Lib) (h : eventHandler) (r : Request) (m : AppMentionEvent) : Prop :=
  ∃ event, (validateRequest lib h r).1 = .ok event ∧ event.Type_ = "event_callback"
    ∧ event.InnerEvent.Type_ = "app_mention" ∧ event.InnerEvent.Data = .appMention m

/-- A character `encoding/json` writes as it is. -/
def jsonPlain (c : Char) : Bool :=
  !(c == '"' || c == '\\' || c == '<' || c == '>' || c == '&' || decide (c.toNat < 32)
    || c.toNat == 0x2028 || c.toNat == 0x2029)

/-! ## Example deliveries -/

/-- The event `slackevents.ParseEvent` returns for a handshake with the given
challenge. -/
def handshakeEvent (challenge : String) : EventsAPIEvent :=
  { Type_ := "url_verification",
    Data := .urlVerification
      { Token := "Jhj5dZrVaK7ZwHHjRyZWjbDl", Challenge := challenge, Type_ := "url_verification" },
    InnerEvent := { Type_ := "", Data := .other } }

/-- The event `slackevents.ParseEvent` returns for a callback with the given
mention. -/
def mentionEvent (m : AppMentionEvent) : EventsAPIEvent :=
  { Type_ := "event_callback", Data := .other,
    InnerEvent := { Type_ := "app_mention", Data := .appMention m } }

/-- The mention of `TestEventHandler_app_mention`. -/
def quoteMention : AppMentionEvent :=
  { Text := "<@U0LAN0Z89> quote DOCN AAPL GOOG. :pray:", TimeStamp := "1515449483.000108",
    Channel := "C0LAN2Q65" }

/-- A mention without a candidate symbol. -/
def helloMention : AppMentionEvent :=
  { Text := "<@U0LAN0Z89> hello", TimeStamp := "1515449483.000108", Channel := "C0LAN2Q65" }

/-- A library for the examples: the signature header must be there, and the
signature is good when it is `v0=` followed by the body; four bodies parse; the
numeric line is the one of the floats 1.23. -/
def exampleLib : Lib where
  NewSecretsVerifier := fun header _ =>
    match header.lookup "X-Slack-Signature" with
    | none => .error .errMissingHeaders
    | some sig =>
      .ok { Write := fun _ => none,
            Ensure := fun body =>
              if sig = "v0=" ++ body then none else some (.other "invalid signature") }
  ParseEvent := fun body =>
    if body = "challenge" then
      .ok (handshakeEvent "3eZbrw1aBm2rZgRNFdxV2595E9CY3gmdALWMmHkvFXO7tYXAYM8P")
    else if body = "quoted challenge" then .ok (handshakeEvent "a\"b")
    else if body = "mention" then .ok (mentionEvent quoteMention)
    else if body = "hello" then .ok (mentionEvent helloMention)
    else .error (.other "unexpected end of JSON input")
  quoteLine := fun _ _ _ => "%2A1.23+%2B1.23+%28%2B1.23%25%29%2A"

/-- A Slack client whose calls all succeed. -/
def okClient : SlackClient := { PostMessageContext := fun _ _ => none }

/-- A Slack client whose calls all fail. -/
def downClient : SlackClient :=
  { PostMessageContext := fun _ _ => some (.other "slack server error") }

/-- The backend of `TestEventHandler_app_mention`: the three floats are 1.23. -/
def exampleFake : FakeBackend :=
  { BaseQuote := { Symbol := "", ShortName := "", RegularMarketPrice := ⟨0x3FF3AE147AE147AE⟩,
                   RegularMarketChange := ⟨0x3FF3AE147AE147AE⟩,
                   RegularMarketChangePercent := ⟨0x3FF3AE147AE147AE⟩ } }

/-- A backend whose call fails. -/
def downBackend : Backend := { Quote := fun _ => .error (.other "remote error") }

def examplePost (body : String) : Request :=
  { Method := "POST", URL := "/", Header := [], Body := .ok body }

def exampleGet : Request :=
  { Method := "GET", URL := "/", Header := [], Body := .ok "" }

/-- The handler of the tests: no signing secret. -/
def openHandler : eventHandler :=
  { signingSecret := "", slackClient := okClient, marketBackend := exampleFake.toBackend }

/-- A handler whose Slack client is down. -/
def mutedHandler : eventHandler :=
  { signingSecret := "", slackClient := downClient, marketBackend := exampleFake.toBackend }

/-- A Slack client whose first call fails and whose later calls succeed. -/
def flakyClient : SlackClient :=
  { PostMessageContext := fun earlier _ =>
      if earlier.isEmpty then some (.other "slack server error") else none }

/-- A handler whose Slack client fails on the first call only. -/
def flakyHandler : eventHandler :=
  { signingSecret := "", slackClient := flakyClient, marketBackend := exampleFake.toBackend }

/-- A handler whose backend is down. -/
def blindHandler : eventHandler :=
  { signingSecret := "", slackClient := okClient, marketBackend := downBackend }

/-- A handler with a signing secret. -/
def signedHandler : eventHandler :=
  { signingSecret := "secret", slackClient := okClient, marketBackend := exampleFake.toBackend }

/-! ## Symbol extraction: proofs -/

theorem matchTail_iff (cs : List Char) :
    matchTail cs = true ↔ ∀ c ∈ cs, classAZ c = false := by
  induction cs with
  | nil => simp [matchTail]
  | cons c cs ih => simp [matchTail, classNotAZ, ih]

theorem matchRepeat_iff (n : Nat) (cs g rest : List Char) :
    matchRepeat n cs = some (g, rest)
      ↔ cs = g ++ rest ∧ g.length = n ∧ ∀ c ∈ g, classAZ c = true := by
  induction n generalizing cs g rest with
  | zero =>
    simp only [matchRepeat, Option.some.injEq, Prod.mk.injEq, List.length_eq_zero]
    constructor
    · rintro ⟨rfl, rfl⟩; simp
    · rintro ⟨h, rfl, -⟩; simp [h]
  | succ n ih =>
    cases cs with
    | nil =>
      simp only [matchRepeat, reduceCtorEq, false_iff]
      rintro ⟨h, hl, -⟩
      have h2 := congrArg List.length h
      simp at h2
      omega
    | cons c cs =>
      simp only [matchRepeat]
      by_cases hc : classAZ c = true
      · simp only [hc, if_true]
        constructor
        · intro h
          cases hm : matchRepeat n cs with
          | none => simp [hm] at h
          | some p =>
            obtain ⟨g2, rest2⟩ := p
            simp only [hm, Option.some.injEq, Prod.mk.injEq] at h
            obtain ⟨rfl, rfl⟩ := h
            obtain ⟨h1, h2, h3⟩ := (ih cs g2 rest2).1 hm
            refine ⟨by simp [h1], by simp [h2], ?_⟩
            intro x hx
            rcases List.mem_cons.1 hx with rfl | hx
            · exact hc
            · exact h3 x hx
        · rintro ⟨h1, h2, h3⟩
          cases g with
          | nil => simp at h2
          | cons x g2 =>
            simp only [List.cons_append, List.cons.injEq] at h1
            obtain ⟨rfl, rfl⟩ := h1
            have := (ih (g2 ++ rest) g2 rest).2
              ⟨rfl, by simpa using h2, fun y hy => h3 y (List.mem_cons_of_mem _ hy)⟩
            simp [this]
      · simp only [hc, Bool.false_eq_true, if_false, reduceCtorEq, false_iff]
        rintro ⟨h1, h2, h3⟩
        cases g with
        | nil => simp at h2
        | cons x g2 =>
          simp only [List.cons_append, List.cons.injEq] at h1
          exact hc (h1.1 ▸ h3 x (List.mem_cons_self _ _))

theorem matchWith_iff (n : Nat) (text g : List Char) :
    matchWith n text = some g
      ↔ ∃ rest, text = g ++ rest ∧ g.length = n ∧ (∀ c ∈ g, classAZ c = true)
          ∧ ∀ c ∈ rest, classAZ c = false := by
  unfold matchWith
  constructor
  · intro h
    cases hm : matchRepeat n text with
    | none => simp [hm] at h
    | some p =>
      obtain ⟨g2, rest⟩ := p
      simp only [hm] at h
      by_cases ht : matchTail rest = true
      · simp only [ht, if_true, Option.some.injEq] at h
        subst h
        obtain ⟨h1, h2, h3⟩ := (matchRepeat_iff n text g2 rest).1 hm
        exact ⟨rest, h1, h2, h3, (matchTail_iff rest).1 ht⟩
      · simp [ht] at h
  · rintro ⟨rest, h1, h2, h3, h4⟩
    have hm := (matchRepeat_iff n text g rest).2 ⟨h1, h2, h3⟩
    simp [hm, (matchTail_iff rest).2 h4]

/-- A text has at most one split into class characters followed by characters
outside the class. -/
theorem split_unique (isLetter : Char → Bool) (g1 g2 r1 r2 : List Char)
    (h : g1 ++ r1 = g2 ++ r2)
    (hg1 : ∀ c ∈ g1, isLetter c = true) (hg2 : ∀ c ∈ g2, isLetter c = true)
    (hr1 : ∀ c ∈ r1, isLetter c = false) (hr2 : ∀ c ∈ r2, isLetter c = false) :
    g1 = g2 := by
  induction g1 generalizing g2 with
  | nil =>
    cases g2 with
    | nil => rfl
    | cons x g2 =>
      simp only [List.nil_append, List.cons_append] at h
      have h1 := hr1 x (by simp [h])
      have h2 := hg2 x (List.mem_cons_self _ _)
      simp [h1] at h2
  | cons y g1 ih =>
    cases g2 with
    | nil =>
      simp only [List.nil_append, List.cons_append] at h
      have h1 := hr2 y (by simp [← h])
      have h2 := hg1 y (List.mem_cons_self _ _)
      simp [h1] at h2
    | cons x g2 =>
      simp only [List.cons_append, List.cons.injEq] at h
      obtain ⟨rfl, h⟩ := h
      rw [ih g2 h (fun c hc => hg1 c (List.mem_cons_of_mem _ hc))
        (fun c hc => hg2 c (List.mem_cons_of_mem _ hc))]

theorem symbolRegexpFind_iff (token core : String) :
    symbolRegexpFind token = some core ↔ Qualifies classAZ token core := by
  unfold symbolRegexpFind Qualifies
  constructor
  · intro h
    cases h4 : matchWith 4 token.data with
    | some g =>
      simp only [h4, Option.some.injEq] at h
      subst h
      obtain ⟨rest, h1, h2, h3, h5⟩ := (matchWith_iff 4 _ g).1 h4
      exact ⟨rest, h1, Or.inr h2, h3, h5⟩
    | none =>
      simp only [h4] at h
      cases h3 : matchWith 3 token.data with
      | some g =>
        simp only [h3, Option.some.injEq] at h
        subst h
        obtain ⟨rest, h1, h2, h6, h5⟩ := (matchWith_iff 3 _ g).1 h3
        exact ⟨rest, h1, Or.inl h2, h6, h5⟩
      | none => simp [h3] at h
  · rintro ⟨rest, h1, hl, hc, hr⟩
    rcases hl with hl | hl
    · have h3 : matchWith 3 token.data = some core.data :=
        (matchWith_iff 3 _ _).2 ⟨rest, h1, hl, hc, hr⟩
      cases h4 : matchWith 4 token.data with
      | some g =>
        obtain ⟨rest2, e1, e2, e3, e4⟩ := (matchWith_iff 4 _ g).1 h4
        have := split_unique classAZ g core.data rest2 rest (by rw [← e1, ← h1]) e3 hc e4 hr
        rw [this] at e2
        omega
      | none => simp [h3]
    · have h4 : matchWith 4 token.data = some core.data :=
        (matchWith_iff 4 _ _).2 ⟨rest, h1, hl, hc, hr⟩
      simp [h4]

theorem filterPossibleSymbols_foldl (tokens acc : List String) :
    tokens.foldl
      (fun possible token =>
        match symbolRegexpFind token with
        | none => possible
        | some m => possible ++ [m])
      acc = acc ++ tokens.filterMap symbolRegexpFind := by
  induction tokens generalizing acc with
  | nil => simp
  | cons t ts ih =>
    simp only [List.foldl_cons, ih]
    cases h : symbolRegexpFind t with
    | none => simp [List.filterMap_cons, h]
    | some m => simp [List.filterMap_cons, h]

theorem filterPossibleSymbols_eq (tokens : List String) :
    filterPossibleSymbols tokens = tokens.filterMap symbolRegexpFind := by
  simp [filterPossibleSymbols, filterPossibleSymbols_foldl]

theorem char_le_iff (a b : Char) : a ≤ b ↔ a.toNat ≤ b.toNat := Iff.rfl

theorem char_eq_ofNat_iff (c : Char) (n : Nat) (h : (Char.ofNat n).toNat = n) :
    c = Char.ofNat n ↔ c.toNat = n := by
  constructor
  · rintro rfl; exact h
  · intro hc; rw [← hc, Char.ofNat_toNat]

theorem classAZ_eq_foldedLetter (c : Char) : classAZ c = foldedLetter c := by
  have e1 := char_eq_ofNat_iff c 0x17F (by decide)
  have e2 := char_eq_ofNat_iff c 0x212A (by decide)
  have ha : ('a' : Char).toNat = 97 := by decide
  have hz : ('z' : Char).toNat = 122 := by decide
  have hA : ('A' : Char).toNat = 65 := by decide
  have hZ : ('Z' : Char).toNat = 90 := by decide
  have l1 : decide ('a' ≤ c) = decide (97 ≤ c.toNat) :=
    decide_eq_decide.2 (by rw [char_le_iff, ha])
  have l2 : decide (c ≤ 'z') = decide (c.toNat ≤ 122) :=
    decide_eq_decide.2 (by rw [char_le_iff, hz])
  have l3 : decide ('A' ≤ c) = decide (65 ≤ c.toNat) :=
    decide_eq_decide.2 (by rw [char_le_iff, hA])
  have l4 : decide (c ≤ 'Z') = decide (c.toNat ≤ 90) :=
    decide_eq_decide.2 (by rw [char_le_iff, hZ])
  have l5 : (c == Char.ofNat 0x17F) = (c.toNat == 0x17F) := by
    rw [Bool.eq_iff_iff, beq_iff_eq, beq_iff_eq]; exact e1
  have l6 : (c == Char.ofNat 0x212A) = (c.toNat == 0x212A) := by
    rw [Bool.eq_iff_iff, beq_iff_eq, beq_iff_eq]; exact e2
  unfold classAZ foldedLetter asciiLetter
  rw [l1, l2, l3, l4, l5, l6]


theorem qualifies_congr (f g : Char → Bool) (hfg : ∀ c, f c = g c) (token core : String) :
    Qualifies f token core ↔ Qualifies g token core := by
  have : f = g := funext hfg
  rw [this]

/-- C1 (amended): `filterPossibleSymbols` returns, in input order and with
duplicates kept, one entry per qualifying token and nothing for any other token,
where a token qualifies when it is 3 or 4 letters followed by zero or more
non-letters up to its end, the entry is those leading letters unchanged, and a
letter is `a-z`, `A-Z`, U+017F or U+212A (the characters the case-insensitive
class `[a-z]` matches).  The three examples of the tests hold. -/
theorem filterPossibleSymbols_spec :
    ExtractsSymbols foldedLetter
      ∧ filterPossibleSymbols ["aaa", "bbbb"] = ["aaa", "bbbb"]
      ∧ filterPossibleSymbols ["aaa...", "bbbb."] = ["aaa", "bbbb"]
      ∧ filterPossibleSymbols ["s", "toolong", "non-alpha", "numeric", ".prefix"] = [] := by
  refine ⟨⟨symbolRegexpFind, ?_, filterPossibleSymbols_eq⟩, by decide, by decide, by decide⟩
  intro token core
  rw [symbolRegexpFind_iff]
  exact qualifies_congr _ _ classAZ_eq_foldedLetter token core

/-- C1 as stated fails: with letters `a-z` and `A-Z` only, the token `abcſ`
(ending in U+017F) qualifies with the entry `abc`, and `abcdſ` with the entry
`abcd`, but `filterPossibleSymbols` returns `abcſ` for the first and nothing for
the second. -/
theorem filterPossibleSymbols_long_s :
    Qualifies asciiLetter "abcſ" "abc"
      ∧ filterPossibleSymbols ["abcſ"] = ["abcſ"]
      ∧ Qualifies asciiLetter "abcdſ" "abcd"
      ∧ filterPossibleSymbols ["abcdſ"] = []
      ∧ ¬ ExtractsSymbols asciiLetter := by
  refine ⟨⟨['ſ'], by decide, by decide, by decide, by decide⟩, by decide,
    ⟨['ſ'], by decide, by decide, by decide, by decide⟩, by decide, ?_⟩
  rintro ⟨entry, hentry, hall⟩
  have h1 := hall ["abcdſ"]
  have h2 : filterPossibleSymbols ["abcdſ"] = [] := by decide
  have h3 : entry "abcdſ" = some "abcd" :=
    (hentry _ _).2 ⟨['ſ'], by decide, by decide, by decide, by decide⟩
  rw [h2] at h1
  simp [List.filterMap_cons, h3] at h1
/-! ## Reply blocks: proofs -/

/-- The loop of `messageBlocks`, started at index `k` with `acc` built so far,
where `n` is the length of the whole list. -/
theorem messageBlocks_loop (lib : Lib) (n : Nat) :
    ∀ (qs : List Quote) (k : Nat) (acc : List Block), k + qs.length = n →
      (qs.enumFrom k).foldl
        (fun messageBlocks iq =>
          let messageBlocks := messageBlocks ++
            [Block.headerBlock
              { type := "plain_text", text := iq.2.ShortName ++ " (" ++ iq.2.Symbol ++ ")",
                emoji := false, verbatim := false },
             Block.sectionBlock
              { type := "mrkdwn",
                text := lib.quoteLine iq.2.RegularMarketPrice iq.2.RegularMarketChange
                  iq.2.RegularMarketChangePercent,
                emoji := false, verbatim := true }]
          if iq.1 ≠ n - 1 then messageBlocks ++ [Block.dividerBlock] else messageBlocks)
        acc = acc ++ describedBlocks lib qs
  | [], _, acc, _ => by simp [describedBlocks]
  | [q], k, acc, hk => by
    have : k = n - 1 := by simp at hk; omega
    simp [describedBlocks, quoteHeader, quoteSection, this]
  | q :: q2 :: qs, k, acc, hk => by
    have hne : k ≠ n - 1 := by simp at hk; omega
    have ih := messageBlocks_loop lib n (q2 :: qs) (k + 1)
      (acc ++ [quoteHeader q, quoteSection lib q] ++ [Block.dividerBlock])
      (by simp at hk ⊢; omega)
    simp only [List.enumFrom_cons, List.foldl_cons] at ih ⊢
    simp only [hne, ne_eq, not_false_eq_true, if_true]
    simp only [quoteHeader, quoteSection] at ih
    rw [ih]
    simp [describedBlocks, quoteHeader, quoteSection]

theorem messageBlocks_eq (lib : Lib) (quotes : List Quote) :
    messageBlocks lib quotes = introBlock :: describedBlocks lib quotes := by
  unfold messageBlocks
  rw [List.enum, messageBlocks_loop lib quotes.length quotes 0 _ (by simp)]
  rfl

theorem describedBlocks_length (lib : Lib) :
    ∀ qs : List Quote, (describedBlocks lib qs).length + 1 = 3 * qs.length ∨ qs = []
  | [] => Or.inr rfl
  | [q] => Or.inl (by simp [describedBlocks])
  | q :: q2 :: qs => by
    rcases describedBlocks_length lib (q2 :: qs) with h | h
    · left; simp only [describedBlocks, List.length_cons] at h ⊢; omega
    · simp at h

theorem describedBlocks_count (lib : Lib) :
    ∀ qs : List Quote, (describedBlocks lib qs).count Block.dividerBlock = qs.length - 1
  | [] => by simp [describedBlocks]
  | [q] => by simp [describedBlocks, quoteHeader, quoteSection]
  | q :: q2 :: qs => by
    have ih := describedBlocks_count lib (q2 :: qs)
    simp only [describedBlocks, List.length_cons] at ih ⊢
    simp [quoteHeader, quoteSection, List.count_cons, ih]

theorem describedBlocks_head (lib : Lib) :
    ∀ qs : List Quote, ∀ b ∈ (describedBlocks lib qs).head?, b ≠ Block.dividerBlock
  | [] => by simp [describedBlocks]
  | [q] => by simp [describedBlocks, quoteHeader]
  | q :: q2 :: qs => by simp [describedBlocks, quoteHeader]

theorem describedBlocks_chain (lib : Lib) :
    ∀ qs : List Quote, NoAdjacentDividers (describedBlocks lib qs)
  | [] => by simp [describedBlocks, NoAdjacentDividers]
  | [q] => by simp [describedBlocks, NoAdjacentDividers, quoteHeader, quoteSection]
  | q :: q2 :: qs => by
    have ih := describedBlocks_chain lib (q2 :: qs)
    have hh := describedBlocks_head lib (q2 :: qs)
    unfold NoAdjacentDividers at ih ⊢
    simp only [describedBlocks] at ih hh ⊢
    refine List.Chain'.cons (by simp [quoteHeader]) (List.Chain'.cons (by simp [quoteSection]) ?_)
    rw [List.chain'_cons']
    exact ⟨fun y hy h => hh y hy h.2, ih⟩

theorem describedBlocks_getLast (lib : Lib) :
    ∀ qs : List Quote, (describedBlocks lib qs).getLast? ≠ some Block.dividerBlock
  | [] => by simp [describedBlocks]
  | [q] => by simp [describedBlocks, quoteSection]
  | q :: q2 :: qs => by
    have ih := describedBlocks_getLast lib (q2 :: qs)
    have hne : describedBlocks lib (q2 :: qs) ≠ [] := by
      cases qs <;> simp [describedBlocks]
    simp only [describedBlocks] at ih ⊢
    rw [List.getLast?_cons_cons, List.getLast?_cons_cons]
    cases hd : describedBlocks lib (q2 :: qs) with
    | nil => exact absurd hd hne
    | cons b bs =>
      rw [hd] at ih
      rw [List.getLast?_cons_cons]
      exact ih


/-- C8: for a list of `n >= 1` quotes the blocks of the reply are the
introductory section block, then for each quote in order a header block showing
the display name and the symbol in brackets and a section block with the numeric
line, with a divider after each quote except the last; so there are `3 * n`
blocks, `n - 1` of them dividers, no two dividers are neighbours and the last
block is not a divider. -/
theorem messageBlocks_layout (lib : Lib) (quotes : List Quote) (hn : 1 ≤ quotes.length) :
    messageBlocks lib quotes = introBlock :: describedBlocks lib quotes
      ∧ (messageBlocks lib quotes).length = 3 * quotes.length
      ∧ (messageBlocks lib quotes).count Block.dividerBlock = quotes.length - 1
      ∧ NoAdjacentDividers (messageBlocks lib quotes)
      ∧ (messageBlocks lib quotes).getLast? ≠ some Block.dividerBlock := by
  rw [messageBlocks_eq]
  refine ⟨rfl, ?_, ?_, ?_, ?_⟩
  · rcases describedBlocks_length lib quotes with h | h
    · simpa using h
    · rw [h] at hn; simp at hn
  · rw [List.count_cons, describedBlocks_count]
    simp [introBlock]
  · unfold NoAdjacentDividers
    rw [List.chain'_cons']
    exact ⟨fun y _ hy => by simp [introBlock] at hy, describedBlocks_chain lib quotes⟩
  · have hne : describedBlocks lib quotes ≠ [] := by
      rcases describedBlocks_length lib quotes with h | h
      · intro h0; rw [h0] at h; simp at h; omega
      · rw [h] at hn; simp at hn
    cases hd : describedBlocks lib quotes with
    | nil => exact absurd hd hne
    | cons b bs =>
      rw [List.getLast?_cons_cons, ← hd]
      exact describedBlocks_getLast lib quotes

theorem messageBlocks_layout_witness :
    messageBlocks exampleLib
        [{ exampleFake.BaseQuote with Symbol := "DOCN", ShortName := "DigitalOcean" },
         { exampleFake.BaseQuote with Symbol := "AAPL", ShortName := "Apple" }]
      = [introBlock,
         .headerBlock
           { type := "plain_text", text := "DigitalOcean (DOCN)", emoji := false,
             verbatim := false },
         .sectionBlock
           { type := "mrkdwn", text := "%2A1.23+%2B1.23+%28%2B1.23%25%29%2A", emoji := false,
             verbatim := true },
         .dividerBlock,
         .headerBlock
           { type := "plain_text", text := "Apple (AAPL)", emoji := false, verbatim := false },
         .sectionBlock
           { type := "mrkdwn", text := "%2A1.23+%2B1.23+%28%2B1.23%25%29%2A", emoji := false,
             verbatim := true }]
      ∧ (messageBlocks exampleLib
          [{ exampleFake.BaseQuote with Symbol := "DOCN", ShortName := "DigitalOcean" },
           { exampleFake.BaseQuote with Symbol := "AAPL", ShortName := "Apple" }]).length
        = 3 * 2 :=
  ⟨by decide,
    (messageBlocks_layout exampleLib
      [{ exampleFake.BaseQuote with Symbol := "DOCN", ShortName := "DigitalOcean" },
       { exampleFake.BaseQuote with Symbol := "AAPL", ShortName := "Apple" }]
      (by decide)).2.1⟩
/-! ## The handler: proofs -/

theorem validateRequest_not_post (lib : Lib) (h : eventHandler) (r : Request)
    (hm : r.Method ≠ "POST") :
    validateRequest lib h r
      = (.error (newHTTPError (.errorString ("invalid method: " ++ r.Method)) 405), []) := by
  simp [validateRequest, hm]

theorem respondWithErr_calls (w : ResponseWriter) (r : Request) (err : GoError) :
    (respondWithErr w r err).2
      = [.logPrintf (r.Method ++ " " ++ r.URL ++ " - responding with error: " ++ err.Error)] := by
  unfold respondWithErr
  cases errorsAsHTTPError err with
  | none => rfl
  | some p => rfl

theorem respondWithErr_http (w : ResponseWriter) (r : Request) (err e : GoError) (s : Nat)
    (h : errorsAsHTTPError err = some (e, s)) :
    (respondWithErr w r err).1
      = (w.WriteHeader s).Write (encodeErrorResponse { StatusCode := s, Error := e.Error }) := by
  simp [respondWithErr, h, httpErrorWriteResponse]

theorem respondWithErr_plain (w : ResponseWriter) (r : Request) (err : GoError)
    (h : errorsAsHTTPError err = none) :
    (respondWithErr w r err).1
      = (w.WriteHeader 500).Write
          (encodeErrorResponse { StatusCode := 500, Error := err.Error }) := by
  simp [respondWithErr, h]

theorem freshWriter_respond_body (s : Nat) (b : String) :
    ((freshWriter.WriteHeader s).Write b).body = b := by
  simp [freshWriter, ResponseWriter.WriteHeader, ResponseWriter.Write,
    ResponseWriter.headerSet]

/-- The error branch of `ServeHTTP` (lines 77-85) when the error is not one of
the two sentinels themselves. -/
theorem ServeHTTP_error (lib : Lib) (h : eventHandler) (r : Request) (err : GoError)
    (calls : List Call) (hv : validateRequest lib h r = (.error err, calls))
    (h1 : err ≠ .lib .errMissingHeaders) (h2 : err ≠ .lib .errExpiredTimestamp) :
    ServeHTTP lib h r =
      { w := (respondWithErr freshWriter r
            (.wrapError ("validating request : " ++ err.Error) err)).1,
        calls := calls ++ (respondWithErr freshWriter r
            (.wrapError ("validating request : " ++ err.Error) err)).2,
        panicked := false } := by
  simp [ServeHTTP, hv, h1, h2, freshWriter]

theorem jsonEscapeChar_plain (c : Char) (h : jsonPlain c = true) : jsonEscapeChar c = [c] := by
  simp only [jsonPlain, Bool.not_eq_true', Bool.or_eq_false_iff, beq_eq_false_iff_ne, ne_eq,
    decide_eq_false_iff_not] at h
  obtain ⟨⟨⟨⟨⟨⟨⟨h1, h2⟩, h3⟩, h4⟩, h5⟩, h6⟩, h7⟩, h8⟩ := h
  have hn : c ≠ '\n' := by rintro rfl; exact h6 (by decide)
  have hr : c ≠ '\r' := by rintro rfl; exact h6 (by decide)
  have ht : c ≠ '\t' := by rintro rfl; exact h6 (by decide)
  simp [jsonEscapeChar, h1, h2, h3, h4, h5, h6, h7, h8, hn, hr, ht]

theorem jsonString_plain (s : String) (h : ∀ c ∈ s.data, jsonPlain c = true) :
    jsonString s = "\"" ++ s ++ "\"" := by
  have : s.data.flatMap jsonEscapeChar = s.data := by
    generalize s.data = l at h
    induction l with
    | nil => rfl
    | cons c cs ih =>
      rw [List.flatMap_cons, jsonEscapeChar_plain c (h c (List.mem_cons_self _ _)),
        ih (fun x hx => h x (List.mem_cons_of_mem _ hx))]
      rfl
  simp [jsonString, this]

/-- C9: a request whose method is not POST is answered with status 405 and an
error body whose status code is 405, whatever its body, its headers and the
signing secret: the body is the object with `status_code` 405 and the error
`invalid method: ` followed by the method, and a newline.  The only call made is
the log line, so the body is not read, no verifier is built, nothing is parsed,
and neither the backend nor the Slack client is called. -/
theorem ServeHTTP_method_not_allowed (lib : Lib) (h : eventHandler) (r : Request)
    (hm : r.Method ≠ "POST") :
    (ServeHTTP lib h r).w.status = 405
      ∧ (ServeHTTP lib h r).w.body
          = encodeErrorResponse { StatusCode := 405, Error := "invalid method: " ++ r.Method }
      ∧ (ServeHTTP lib h r).w.body
          = "\x7b\"status_code\":405,\"error\":" ++ jsonString ("invalid method: " ++ r.Method)
              ++ "\x7d\n"
      ∧ ((∀ c ∈ r.Method.data, jsonPlain c = true) →
          (ServeHTTP lib h r).w.body
            = "\x7b\"status_code\":405,\"error\":\"invalid method: " ++ r.Method ++ "\"\x7d\n")
      ∧ (∃ line, (ServeHTTP lib h r).calls = [.logPrintf line])
      ∧ Call.readAll ∉ (ServeHTTP lib h r).calls
      ∧ Call.newSecretsVerifier h.signingSecret ∉ (ServeHTTP lib h r).calls
      ∧ (ServeHTTP lib h r).parses = []
      ∧ (ServeHTTP lib h r).quotes = []
      ∧ (ServeHTTP lib h r).posts = []
      ∧ (ServeHTTP lib h r).panicked = false := by
  rw [ServeHTTP_error lib h r _ _ (validateRequest_not_post lib h r hm)
    (by simp [newHTTPError]) (by simp [newHTTPError])]
  rw [respondWithErr_calls,
    respondWithErr_http _ _ _ (.errorString ("invalid method: " ++ r.Method)) 405
      (by simp [errorsAsHTTPError, newHTTPError])]
  have h405 : Nat.repr 405 = "405" := by decide
  have hbody : ((freshWriter.WriteHeader 405).Write
      (encodeErrorResponse
        { StatusCode := 405, Error := (GoError.errorString ("invalid method: " ++ r.Method)).Error
          })).body
      = "\x7b\"status_code\":405,\"error\":" ++ jsonString ("invalid method: " ++ r.Method)
          ++ "\x7d\n" := by
    rw [freshWriter_respond_body]
    simp only [encodeErrorResponse, GoError.Error, h405]
    have hlit : "\x7b\"status_code\":" ++ "405" ++ ",\"error\":"
        = "\x7b\"status_code\":405,\"error\":" := by decide
    rw [hlit]
  refine ⟨rfl, ?_, hbody, ?_, ⟨_, rfl⟩, by simp, by simp, rfl, rfl, rfl, rfl⟩
  · rw [freshWriter_respond_body]
    rfl
  · intro hplain
    show ((freshWriter.WriteHeader 405).Write _).body = _
    rw [hbody, jsonString_plain]
    · have hlit : "\x7b\"status_code\":405,\"error\":" ++ ("\"" ++ ("invalid method: " ++ r.Method)
          ++ "\"") ++ "\x7d\n"
          = "\x7b\"status_code\":405,\"error\":\"invalid method: " ++ r.Method ++ "\"\x7d\n" := by
        apply String.ext
        simp [String.data_append]
      exact hlit
    · intro c hc
      rw [String.data_append, List.mem_append] at hc
      rcases hc with hc | hc
      · revert c
        decide
      · exact hplain c hc

theorem ServeHTTP_method_not_allowed_witness :
    exampleGet.Method ≠ "POST"
      ∧ (ServeHTTP exampleLib signedHandler exampleGet).w.status = 405
      ∧ (ServeHTTP exampleLib signedHandler exampleGet).w.body
          = "\x7b\"status_code\":405,\"error\":\"invalid method: GET\"\x7d\n"
      ∧ (ServeHTTP exampleLib signedHandler exampleGet).calls
          = [.logPrintf
              "GET / - responding with error: validating request : invalid method: GET: 405"] :=
  ⟨by decide, (ServeHTTP_method_not_allowed exampleLib signedHandler exampleGet (by decide)).1,
    (ServeHTTP_method_not_allowed exampleLib signedHandler exampleGet (by decide)).2.2.2.1
      (by decide),
    by decide⟩

theorem errorResponse_ne_challenge (e : httpErrorResponse) (challenge : String) :
    encodeErrorResponse e ≠ encodeChallengeResponse challenge := by
  intro heq
  have h1 : "\x7b\"status_code\":".data = '\x7b' :: '"' :: 's' :: "tatus_code\":".data := by decide
  have h2 : "\x7b\"Challenge\":".data = '\x7b' :: '"' :: 'C' :: "hallenge\":".data := by decide
  have := congrArg String.data heq
  simp only [encodeErrorResponse, encodeChallengeResponse, String.data_append, h1, h2,
    List.cons_append, List.cons.injEq] at this
  exact absurd this.2.2.1 (by decide)

/-- What the error branch leaves behind: an error body with the status of the
response, and only the calls of `validateRequest` followed by a log line. -/
theorem ServeHTTP_error_outcome (lib : Lib) (h : eventHandler) (r : Request) (err : GoError)
    (calls : List Call) (hv : validateRequest lib h r = (.error err, calls))
    (h1 : err ≠ .lib .errMissingHeaders) (h2 : err ≠ .lib .errExpiredTimestamp) :
    (∃ msg, (ServeHTTP lib h r).w.body
        = encodeErrorResponse
            { StatusCode := ((errorsAsHTTPError err).map Prod.snd).getD 500, Error := msg })
      ∧ (ServeHTTP lib h r).w.status = ((errorsAsHTTPError err).map Prod.snd).getD 500
      ∧ (ServeHTTP lib h r).parses = calls.filterMap Call.parsed
      ∧ (ServeHTTP lib h r).quotes = calls.filterMap Call.quoted
      ∧ (ServeHTTP lib h r).posts = calls.filterMap Call.posted
      ∧ (ServeHTTP lib h r).panicked = false := by
  rw [ServeHTTP_error lib h r err calls hv h1 h2, respondWithErr_calls]
  cases ha : errorsAsHTTPError err with
  | none =>
    rw [respondWithErr_plain _ _ _ (by simp [errorsAsHTTPError, ha])]
    refine ⟨⟨(GoError.wrapError ("validating request : " ++ err.Error) err).Error, ?_⟩,
      rfl, ?_, ?_, ?_, rfl⟩
    · rw [freshWriter_respond_body]; rfl
    · simp [Outcome.parses, List.filterMap_append, Call.parsed]
    · simp [Outcome.quotes, List.filterMap_append, Call.quoted]
    · simp [Outcome.posts, List.filterMap_append, Call.posted]
  | some p =>
    obtain ⟨e, s⟩ := p
    rw [respondWithErr_http _ _ _ e s (by simp [errorsAsHTTPError, ha])]
    refine ⟨⟨e.Error, ?_⟩, rfl, ?_, ?_, ?_, rfl⟩
    · rw [freshWriter_respond_body]; rfl
    · simp [Outcome.parses, List.filterMap_append, Call.parsed]
    · simp [Outcome.quotes, List.filterMap_append, Call.quoted]
    · simp [Outcome.posts, List.filterMap_append, Call.posted]

/-- The 400 case of the switch (lines 79-80) is taken when `validateRequest`
returns one of the two sentinels itself. -/
theorem ServeHTTP_bare_sentinel (lib : Lib) (h : eventHandler) (r : Request)
    (e : LibError) (calls : List Call) (hv : validateRequest lib h r = (.error (.lib e), calls))
    (he : e = .errMissingHeaders ∨ e = .errExpiredTimestamp) :
    (ServeHTTP lib h r).w.status = 400 := by
  have hcond : GoError.lib e = .lib .errMissingHeaders
      ∨ GoError.lib e = .lib .errExpiredTimestamp := by
    rcases he with rfl | rfl
    · exact Or.inl rfl
    · exact Or.inr rfl
  unfold ServeHTTP
  rw [hv]
  simp only [hcond, if_true]
  rw [respondWithErr_http _ _ _ (.lib e) 400 (by simp [errorsAsHTTPError, newHTTPError])]
  rfl

/-- C2 (what the code does): when the verifier cannot be built, whatever the
error and so also when the headers are missing (`slack.ErrMissingHeaders`) or the
timestamp is too old (`slack.ErrExpiredTimestamp`), a POST delivery to a handler
with a signing secret is answered with status 500, not 400, and an error body
whose status code is 500: the sentinel reaches `ServeHTTP` wrapped by
`validateRequest`, so the 400 case of its switch is not taken. -/
theorem ServeHTTP_verifier_error_is_500 (lib : Lib) (h : eventHandler) (r : Request)
    (body : String) (e : LibError) (hm : r.Method = "POST") (hb : r.Body = .ok body)
    (hs : h.signingSecret ≠ "")
    (hv : lib.NewSecretsVerifier r.Header h.signingSecret = .error e) :
    (ServeHTTP lib h r).w.status = 500
      ∧ (ServeHTTP lib h r).w.status ≠ 400
      ∧ (ServeHTTP lib h r).w.body
          = encodeErrorResponse
              { StatusCode := 500,
                Error := "validating request : "
                  ++ ("building slack secrets verifier: " ++ e.Error) } := by
  have hval : validateRequest lib h r
      = (.error (fmtErrorfWrap "building slack secrets verifier" (.lib e)),
          [.readAll, .newSecretsVerifier h.signingSecret]) := by
    simp [validateRequest, hm, hb, hs, hv]
  rw [ServeHTTP_error lib h r _ _ hval (by simp [fmtErrorfWrap]) (by simp [fmtErrorfWrap])]
  rw [respondWithErr_plain _ _ _ (by simp [errorsAsHTTPError, fmtErrorfWrap])]
  refine ⟨rfl, ?_, ?_⟩
  · show (500 : Nat) ≠ 400
    decide
  · rw [freshWriter_respond_body]
    simp [GoError.Error, fmtErrorfWrap, String.append_assoc]

theorem ServeHTTP_verifier_error_is_500_witness :
    (ServeHTTP exampleLib signedHandler (examplePost "mention")).w.status = 500
      ∧ (ServeHTTP exampleLib signedHandler (examplePost "mention")).w.body
          = "\x7b\"status_code\":500,\"error\":\"validating request : "
              ++ "building slack secrets verifier: missing headers\"\x7d\n" :=
  ⟨(ServeHTTP_verifier_error_is_500 exampleLib signedHandler (examplePost "mention") "mention"
      .errMissingHeaders rfl rfl (by decide) rfl).1,
    by decide⟩

/-- With a signing secret and no passed signature check, `validateRequest`
fails before it parses, with an error that answers 405, 500 or 401. -/
theorem validateRequest_unverified (lib : Lib) (h : eventHandler) (r : Request)
    (hs : h.signingSecret ≠ "") (hf : verified lib h r = false) :
    ∃ err calls, validateRequest lib h r = (.error err, calls)
      ∧ err ≠ .lib .errMissingHeaders ∧ err ≠ .lib .errExpiredTimestamp
      ∧ (((errorsAsHTTPError err).map Prod.snd).getD 500 = 405
          ∨ ((errorsAsHTTPError err).map Prod.snd).getD 500 = 500
          ∨ ((errorsAsHTTPError err).map Prod.snd).getD 500 = 401)
      ∧ calls.filterMap Call.parsed = [] ∧ calls.filterMap Call.quoted = []
      ∧ calls.filterMap Call.posted = [] := by
  by_cases hm : r.Method = "POST"
  · cases hb : r.Body with
    | error e =>
      have hval : validateRequest lib h r
          = (.error (fmtErrorfWrap "reading request body" (.lib e)), [.readAll]) := by
        simp [validateRequest, hm, hb]
      exact ⟨_, _, hval, by simp [fmtErrorfWrap], by simp [fmtErrorfWrap],
        Or.inr (Or.inl rfl), rfl, rfl, rfl⟩
    | ok body =>
      cases hv : lib.NewSecretsVerifier r.Header h.signingSecret with
      | error e =>
        have hval : validateRequest lib h r
            = (.error (fmtErrorfWrap "building slack secrets verifier" (.lib e)),
                [.readAll, .newSecretsVerifier h.signingSecret]) := by
          simp [validateRequest, hm, hb, hs, hv]
        exact ⟨_, _, hval, by simp [fmtErrorfWrap], by simp [fmtErrorfWrap],
          Or.inr (Or.inl rfl), rfl, rfl, rfl⟩
      | ok sv =>
        cases hw : sv.Write body with
        | some e =>
          have hval : validateRequest lib h r
              = (.error (newHTTPErrorWithMessage (.lib e) "verifying signature" 500),
                  [.readAll, .newSecretsVerifier h.signingSecret, .svWrite body]) := by
            simp [validateRequest, hm, hb, hs, hv, hw]
          exact ⟨_, _, hval, by simp [newHTTPErrorWithMessage],
            by simp [newHTTPErrorWithMessage], Or.inr (Or.inl rfl), rfl, rfl, rfl⟩
        | none =>
          cases he : sv.Ensure body with
          | some e =>
            have hval : validateRequest lib h r
                = (.error (newHTTPErrorWithMessage (.lib e) "verifying signature" 401),
                    [.readAll, .newSecretsVerifier h.signingSecret, .svWrite body,
                      .svEnsure]) := by
              simp [validateRequest, hm, hb, hs, hv, hw, he]
            exact ⟨_, _, hval, by simp [newHTTPErrorWithMessage],
              by simp [newHTTPErrorWithMessage], Or.inr (Or.inr rfl), rfl, rfl, rfl⟩
          | none => simp [verified, hb, hv, hw, he] at hf
  · exact ⟨_, _, validateRequest_not_post lib h r hm, by simp [newHTTPError],
      by simp [newHTTPError], Or.inl rfl, rfl, rfl, rfl⟩

/-- C3: with a signing secret configured, a delivery whose signature check did
not pass (the verifier could not be built, did not take the body, or rejected
the signature) is never parsed or dispatched: the parser, the backend and the
Slack client are not called, the body is an error body and no challenge
response, and the status is 405, 500 or 401, so not 200.  Hence a run that
parses, asks for quotes or posts has an empty secret or a passed check. -/
theorem ServeHTTP_auth_guard (lib : Lib) (h : eventHandler) (r : Request) :
    (h.signingSecret ≠ "" → verified lib h r = false →
        (ServeHTTP lib h r).parses = [] ∧ (ServeHTTP lib h r).quotes = []
          ∧ (ServeHTTP lib h r).posts = []
          ∧ (∀ challenge, (ServeHTTP lib h r).w.body ≠ encodeChallengeResponse challenge)
          ∧ (ServeHTTP lib h r).w.status ≠ 200
          ∧ ((ServeHTTP lib h r).w.status = 405 ∨ (ServeHTTP lib h r).w.status = 500
              ∨ (ServeHTTP lib h r).w.status = 401))
      ∧ ((ServeHTTP lib h r).parses ≠ [] ∨ (ServeHTTP lib h r).quotes ≠ []
            ∨ (ServeHTTP lib h r).posts ≠ [] →
          h.signingSecret = "" ∨ verified lib h r = true) := by
  have key : h.signingSecret ≠ "" → verified lib h r = false →
        (ServeHTTP lib h r).parses = [] ∧ (ServeHTTP lib h r).quotes = []
          ∧ (ServeHTTP lib h r).posts = []
          ∧ (∀ challenge, (ServeHTTP lib h r).w.body ≠ encodeChallengeResponse challenge)
          ∧ (ServeHTTP lib h r).w.status ≠ 200
          ∧ ((ServeHTTP lib h r).w.status = 405 ∨ (ServeHTTP lib h r).w.status = 500
              ∨ (ServeHTTP lib h r).w.status = 401) := by
    intro hs hf
    obtain ⟨err, calls, hv, h1, h2, hst, hp, hq, hpo⟩ :=
      validateRequest_unverified lib h r hs hf
    obtain ⟨⟨msg, hbody⟩, hstatus, hparses, hquotes, hposts, -⟩ :=
      ServeHTTP_error_outcome lib h r err calls hv h1 h2
    refine ⟨by rw [hparses, hp], by rw [hquotes, hq], by rw [hposts, hpo], ?_, ?_, ?_⟩
    · intro challenge
      rw [hbody]
      exact errorResponse_ne_challenge _ _
    · rw [hstatus]
      rcases hst with e | e | e <;> rw [e] <;> decide
    · rw [hstatus]
      exact hst
  refine ⟨key, ?_⟩
  intro hreach
  by_contra hcon
  push_neg at hcon
  obtain ⟨hs, hf⟩ := hcon
  have hf2 : verified lib h r = false := by
    cases hx : verified lib h r with
    | true => exact absurd hx hf
    | false => rfl
  obtain ⟨a, b, c, -⟩ := key hs hf2
  rcases hreach with x | x | x
  · exact x a
  · exact x b
  · exact x c

theorem ServeHTTP_auth_guard_witness :
    signedHandler.signingSecret ≠ ""
      ∧ verified exampleLib signedHandler
          { Method := "POST", URL := "/", Header := [("X-Slack-Signature", "v0=forged")],
            Body := .ok "mention" } = false
      ∧ (ServeHTTP exampleLib signedHandler
          { Method := "POST", URL := "/", Header := [("X-Slack-Signature", "v0=forged")],
            Body := .ok "mention" }).w.status = 401
      ∧ (ServeHTTP exampleLib signedHandler
          { Method := "POST", URL := "/", Header := [("X-Slack-Signature", "v0=forged")],
            Body := .ok "mention" }).posts = [] :=
  ⟨by decide, by decide, by decide,
    ((ServeHTTP_auth_guard exampleLib signedHandler
      { Method := "POST", URL := "/", Header := [("X-Slack-Signature", "v0=forged")],
        Body := .ok "mention" }).1 (by decide) (by decide)).2.2.1⟩

/-- The success branch of `ServeHTTP` for a handshake (lines 87-90). -/
theorem ServeHTTP_url_verification (lib : Lib) (h : eventHandler) (r : Request)
    (body : String) (event : EventsAPIEvent) (v : EventsAPIURLVerificationEvent)
    (hm : r.Method = "POST") (hb : r.Body = .ok body) (hs : h.signingSecret = "")
    (hp : lib.ParseEvent body = .ok event) (ht : event.Type_ = "url_verification")
    (hd : event.Data = .urlVerification v) :
    ServeHTTP lib h r =
      { w := freshWriter.Write (encodeChallengeResponse v.Challenge),
        calls := [.readAll, .parseEvent body], panicked := false } := by
  have hval : validateRequest lib h r = (.ok event, [.readAll, .parseEvent body]) := by
    simp [validateRequest, hm, hb, hs, parseEvent, hp]
  simp [ServeHTTP, hval, ht, hd, freshWriter]

/-- C10 (amended): a POST delivery that parses as a handshake with challenge
`X`, handled with no signing secret, is answered with status 200 and the JSON
encoding of the challenge response followed by a newline; when no character of
`X` is one that the encoder escapes, that body is `{"Challenge":"X"}` and a
newline.  The backend and the Slack client are not called. -/
theorem ServeHTTP_challenge (lib : Lib) (h : eventHandler) (r : Request)
    (body : String) (event : EventsAPIEvent) (v : EventsAPIURLVerificationEvent)
    (hm : r.Method = "POST") (hb : r.Body = .ok body) (hs : h.signingSecret = "")
    (hp : lib.ParseEvent body = .ok event) (ht : event.Type_ = "url_verification")
    (hd : event.Data = .urlVerification v) :
    (ServeHTTP lib h r).w.status = 200
      ∧ (ServeHTTP lib h r).w.body = encodeChallengeResponse v.Challenge
      ∧ ((∀ c ∈ v.Challenge.data, jsonPlain c = true) →
          (ServeHTTP lib h r).w.body = "\x7b\"Challenge\":\"" ++ v.Challenge ++ "\"\x7d\n")
      ∧ (ServeHTTP lib h r).quotes = [] ∧ (ServeHTTP lib h r).posts = []
      ∧ (ServeHTTP lib h r).panicked = false := by
  rw [ServeHTTP_url_verification lib h r body event v hm hb hs hp ht hd]
  have hbody : (freshWriter.Write (encodeChallengeResponse v.Challenge)).body
      = encodeChallengeResponse v.Challenge := by
    simp [freshWriter, ResponseWriter.Write, ResponseWriter.WriteHeader,
      ResponseWriter.headerSet]
  refine ⟨rfl, hbody, ?_, rfl, rfl, rfl⟩
  intro hplain
  show (freshWriter.Write (encodeChallengeResponse v.Challenge)).body = _
  rw [hbody, encodeChallengeResponse, jsonString_plain _ hplain]
  simp [String.append_assoc]
  rfl

theorem ServeHTTP_challenge_witness :
    (ServeHTTP exampleLib openHandler (examplePost "challenge")).w.status = 200
      ∧ (ServeHTTP exampleLib openHandler (examplePost "challenge")).w.body
          = "\x7b\"Challenge\":\"3eZbrw1aBm2rZgRNFdxV2595E9CY3gmdALWMmHkvFXO7tYXAYM8P\"\x7d\n" :=
  ⟨(ServeHTTP_challenge exampleLib openHandler (examplePost "challenge") "challenge"
      (handshakeEvent "3eZbrw1aBm2rZgRNFdxV2595E9CY3gmdALWMmHkvFXO7tYXAYM8P") _ rfl rfl rfl rfl
      rfl rfl).1,
   (ServeHTTP_challenge exampleLib openHandler (examplePost "challenge") "challenge"
      (handshakeEvent "3eZbrw1aBm2rZgRNFdxV2595E9CY3gmdALWMmHkvFXO7tYXAYM8P") _ rfl rfl rfl rfl
      rfl rfl).2.2.1 (by decide)⟩

/-- C10 as stated fails: for the handshake with challenge `a"b`, handled with no
signing secret, the body is `{"Challenge":"a\"b"}` and a newline, which is not
`{"Challenge":"a"b"}`, with or without the newline; and for the challenge of the
test, which needs no escaping, the body ends in a newline, so it is not the bare
object either. -/
theorem handshake_body_not_verbatim :
    (examplePost "quoted challenge").Method = "POST"
      ∧ openHandler.signingSecret = ""
      ∧ exampleLib.ParseEvent "quoted challenge" = .ok (handshakeEvent "a\"b")
      ∧ (ServeHTTP exampleLib openHandler (examplePost "quoted challenge")).w.status = 200
      ∧ (ServeHTTP exampleLib openHandler (examplePost "quoted challenge")).w.body
          = "\x7b\"Challenge\":\"a\\\"b\"\x7d\n"
      ∧ (ServeHTTP exampleLib openHandler (examplePost "quoted challenge")).w.body
          ≠ "\x7b\"Challenge\":\"" ++ "a\"b" ++ "\"\x7d"
      ∧ (ServeHTTP exampleLib openHandler (examplePost "quoted challenge")).w.body
          ≠ "\x7b\"Challenge\":\"" ++ "a\"b" ++ "\"\x7d\n"
      ∧ exampleLib.ParseEvent "challenge"
          = .ok (handshakeEvent "3eZbrw1aBm2rZgRNFdxV2595E9CY3gmdALWMmHkvFXO7tYXAYM8P")
      ∧ (ServeHTTP exampleLib openHandler (examplePost "challenge")).w.body
          ≠ "\x7b\"Challenge\":\"" ++ "3eZbrw1aBm2rZgRNFdxV2595E9CY3gmdALWMmHkvFXO7tYXAYM8P"
              ++ "\"\x7d" :=
  ⟨rfl, rfl, rfl, by decide, by decide, by decide, by decide, rfl, by decide⟩

/-! ### Mentions -/

theorem validateRequest_calls (lib : Lib) (h : eventHandler) (r : Request) :
    (validateRequest lib h r).2.filterMap Call.quoted = []
      ∧ (validateRequest lib h r).2.filterMap Call.posted = [] := by
  unfold validateRequest
  split_ifs <;> (repeat' split) <;> exact ⟨rfl, rfl⟩

/-- A mention is served by the mention branch. -/
theorem ServeHTTP_mention (lib : Lib) (h : eventHandler) (r : Request) (m : AppMentionEvent)
    (hmen : IsMention lib h r m) :
    ServeHTTP lib h r = serveAppMention lib h freshWriter r (validateRequest lib h r).2 m := by
  obtain ⟨event, hv, ht, hit, hd⟩ := hmen
  have hval : validateRequest lib h r = (.ok event, (validateRequest lib h r).2) :=
    Prod.ext hv rfl
  have hne : event.Type_ ≠ "url_verification" := by rw [ht]; decide
  unfold ServeHTTP
  rw [hval]
  simp [ht, hit, hd, freshWriter]

theorem postReply_fail (lib : Lib) (h : eventHandler) (r : Request) (calls : List Call)
    (m : AppMentionEvent) (quotes : List Quote) (e : LibError)
    (hc : h.slackClient.PostMessageContext [] (replyMessage lib m quotes) = some e) :
    (postReply lib h freshWriter r calls m quotes).w
        = (freshWriter.WriteHeader 500).Write
            (encodeErrorResponse
              { StatusCode := 500, Error := "responding to mention: " ++ e.Error })
      ∧ (postReply lib h freshWriter r calls m quotes).posts
        = calls.filterMap Call.posted ++ [replyMessage lib m quotes, apologyMessage m]
      ∧ (postReply lib h freshWriter r calls m quotes).quotes = calls.filterMap Call.quoted
      ∧ (postReply lib h freshWriter r calls m quotes).panicked = false := by
  unfold postReply
  simp only [hc]
  rw [respondWithErr_calls, respondWithErr_http _ _ _
    (fmtErrorfWrap "responding to mention" (.lib e)) 500
    (by simp [errorsAsHTTPError, newHTTPErrorWithMessage])]
  refine ⟨?_, ?_, ?_, trivial⟩
  · simp [fmtErrorfWrap, GoError.Error, String.append_assoc]
  · simp [Outcome.posts, List.filterMap_append, Call.posted]
  · simp [Outcome.quotes, List.filterMap_append, Call.quoted]

theorem postReply_ok (lib : Lib) (h : eventHandler) (r : Request) (calls : List Call)
    (m : AppMentionEvent) (quotes : List Quote)
    (hc : h.slackClient.PostMessageContext [] (replyMessage lib m quotes) = none) :
    (postReply lib h freshWriter r calls m quotes).w = freshWriter.Write "\x7b\x7d"
      ∧ (postReply lib h freshWriter r calls m quotes).posts
        = calls.filterMap Call.posted ++ [replyMessage lib m quotes]
      ∧ (postReply lib h freshWriter r calls m quotes).quotes = calls.filterMap Call.quoted
      ∧ (postReply lib h freshWriter r calls m quotes).panicked = false := by
  unfold postReply
  simp only [hc]
  refine ⟨trivial, ?_, ?_, trivial⟩
  · simp [Outcome.posts, List.filterMap_append, Call.posted]
  · simp [Outcome.quotes, List.filterMap_append, Call.quoted]

/-- The posts of `postReply` start with the reply. -/
theorem postReply_posts_head (lib : Lib) (h : eventHandler) (r : Request) (calls : List Call)
    (m : AppMentionEvent) (quotes : List Quote) (hcalls : calls.filterMap Call.posted = []) :
    (postReply lib h freshWriter r calls m quotes).posts.head?
      = some (replyMessage lib m quotes) := by
  cases hc : h.slackClient.PostMessageContext [] (replyMessage lib m quotes) with
  | some e => rw [(postReply_fail lib h r calls m quotes e hc).2.1, hcalls]; rfl
  | none => rw [(postReply_ok lib h r calls m quotes hc).2.1, hcalls]; rfl

/-- The quotes the mention branch replies with, when the backend does not fail:
none without a candidate symbol, and the result of the backend otherwise. -/
theorem serveAppMention_cases (lib : Lib) (h : eventHandler) (r : Request) (calls : List Call)
    (m : AppMentionEvent) (hq : calls.filterMap Call.quoted = [])
    (hp : calls.filterMap Call.posted = []) :
    (filterPossibleSymbols (stringsFields m.Text) = []
        ∧ serveAppMention lib h freshWriter r calls m = postReply lib h freshWriter r calls m [])
      ∨ (∃ quotes, filterPossibleSymbols (stringsFields m.Text) ≠ []
        ∧ h.marketBackend.Quote (filterPossibleSymbols (stringsFields m.Text)) = .ok quotes
        ∧ serveAppMention lib h freshWriter r calls m
            = postReply lib h freshWriter r
                (calls ++ [.quote (filterPossibleSymbols (stringsFields m.Text))]) m quotes)
      ∨ (∃ e, filterPossibleSymbols (stringsFields m.Text) ≠ []
        ∧ h.marketBackend.Quote (filterPossibleSymbols (stringsFields m.Text)) = .error e
        ∧ (serveAppMention lib h freshWriter r calls m).w
            = (freshWriter.WriteHeader 500).Write
                (encodeErrorResponse
                  { StatusCode := 500, Error := "getting quotes: " ++ e.Error })
        ∧ (serveAppMention lib h freshWriter r calls m).posts = []
        ∧ (serveAppMention lib h freshWriter r calls m).quotes
            = [filterPossibleSymbols (stringsFields m.Text)]
        ∧ (serveAppMention lib h freshWriter r calls m).panicked = false) := by
  by_cases hs : filterPossibleSymbols (stringsFields m.Text) = []
  · left
    exact ⟨hs, by simp [serveAppMention, hs]⟩
  · have hlen : (filterPossibleSymbols (stringsFields m.Text)).length ≠ 0 := by
      simpa using hs
    cases hb : h.marketBackend.Quote (filterPossibleSymbols (stringsFields m.Text)) with
    | ok quotes =>
      right; left
      exact ⟨quotes, hs, rfl, by simp [serveAppMention, hs, hb]⟩
    | error e =>
      right; right
      refine ⟨e, hs, rfl, ?_, ?_, ?_, ?_⟩
      · simp only [serveAppMention, hlen, ne_eq, not_false_eq_true, if_true, hb]
        rw [respondWithErr_http _ _ _ (fmtErrorfWrap "getting quotes" (.lib e)) 500
          (by simp [errorsAsHTTPError, newHTTPErrorWithMessage])]
        simp [fmtErrorfWrap, GoError.Error, String.append_assoc]
      · simp only [serveAppMention, hlen, ne_eq, not_false_eq_true, if_true, hb]
        rw [respondWithErr_calls]
        simp [Outcome.posts, List.filterMap_append, Call.posted, hp]
      · simp only [serveAppMention, hlen, ne_eq, not_false_eq_true, if_true, hb]
        rw [respondWithErr_calls]
        simp [Outcome.quotes, List.filterMap_append, Call.quoted, hq]
      · simp only [serveAppMention, hlen, ne_eq, not_false_eq_true, if_true, hb]

theorem filterMap_posted_quote (calls : List Call) (symbols : List String)
    (hp : calls.filterMap Call.posted = []) :
    (calls ++ [Call.quote symbols]).filterMap Call.posted = [] := by
  simp [List.filterMap_append, hp, Call.posted]

theorem filterMap_quoted_quote (calls : List Call) (symbols : List String)
    (hq : calls.filterMap Call.quoted = []) :
    (calls ++ [Call.quote symbols]).filterMap Call.quoted = [symbols] := by
  simp [List.filterMap_append, hq, Call.quoted]

/-- C4: in a mention delivery whose first outbound call, the reply, fails with
error `e`, the handler makes exactly one more outbound call, the fixed apology
text to the channel and thread of the mention (those of the reply), and answers
500 with the message "responding to mention: " followed by the message of `e`.
The client is arbitrary, so this holds whatever the second call returns; there
are two outbound calls in all. -/
theorem ServeHTTP_reply_failure (lib : Lib) (h : eventHandler) (r : Request)
    (m : AppMentionEvent) (reply : PostMessage) (e : LibError) (hmen : IsMention lib h r m)
    (hfirst : (ServeHTTP lib h r).posts.head? = some reply)
    (hfail : h.slackClient.PostMessageContext [] reply = some e) :
    (ServeHTTP lib h r).posts
        = [reply,
           { channel := m.Channel,
             content := .text "Sorry, I messed something up... Try again later :poop:" true,
             ts := m.TimeStamp, broadcast := true }]
      ∧ reply.channel = m.Channel ∧ reply.ts = m.TimeStamp
      ∧ (ServeHTTP lib h r).posts.length = 2
      ∧ (ServeHTTP lib h r).w.status = 500
      ∧ (ServeHTTP lib h r).w.body
          = encodeErrorResponse
              { StatusCode := 500, Error := "responding to mention: " ++ e.Error }
      ∧ (ServeHTTP lib h r).panicked = false := by
  have hcalls := validateRequest_calls lib h r
  rw [ServeHTTP_mention lib h r m hmen] at hfirst ⊢
  have finish : ∀ calls quotes, calls.filterMap Call.posted = [] →
      (postReply lib h freshWriter r calls m quotes).posts.head? = some reply →
      (postReply lib h freshWriter r calls m quotes).posts
        = [reply,
           { channel := m.Channel,
             content := .text "Sorry, I messed something up... Try again later :poop:" true,
             ts := m.TimeStamp, broadcast := true }]
      ∧ reply.channel = m.Channel ∧ reply.ts = m.TimeStamp
      ∧ (postReply lib h freshWriter r calls m quotes).posts.length = 2
      ∧ (postReply lib h freshWriter r calls m quotes).w.status = 500
      ∧ (postReply lib h freshWriter r calls m quotes).w.body
          = encodeErrorResponse
              { StatusCode := 500, Error := "responding to mention: " ++ e.Error }
      ∧ (postReply lib h freshWriter r calls m quotes).panicked = false := by
    intro calls quotes hp hhead
    rw [postReply_posts_head lib h r calls m quotes hp] at hhead
    have hreply : replyMessage lib m quotes = reply := Option.some.inj hhead
    rw [← hreply] at hfail
    obtain ⟨hw, hposts, -, hpan⟩ := postReply_fail lib h r calls m quotes e hfail
    rw [hposts, hw, hp, ← hreply]
    refine ⟨rfl, ?_, ?_, rfl, rfl, freshWriter_respond_body _ _, hpan⟩
    · unfold replyMessage; split <;> rfl
    · unfold replyMessage; split <;> rfl
  rcases serveAppMention_cases lib h r _ m hcalls.1 hcalls.2 with
    ⟨-, heq⟩ | ⟨quotes, -, -, heq⟩ | ⟨e2, -, -, -, hposts, -⟩
  · rw [heq] at hfirst ⊢
    exact finish _ _ hcalls.2 hfirst
  · rw [heq] at hfirst ⊢
    exact finish _ _ (filterMap_posted_quote _ _ hcalls.2) hfirst
  · rw [hposts] at hfirst
    simp at hfirst

theorem ServeHTTP_reply_failure_witness :
    (ServeHTTP exampleLib mutedHandler (examplePost "mention")).posts.length = 2
      ∧ (ServeHTTP exampleLib mutedHandler (examplePost "mention")).w.status = 500
      ∧ (ServeHTTP exampleLib mutedHandler (examplePost "mention")).w.body
          = "\x7b\"status_code\":500,\"error\":\"responding to mention: "
              ++ "slack server error\"\x7d\n"
      ∧ (ServeHTTP exampleLib flakyHandler (examplePost "mention")).w
          = (ServeHTTP exampleLib mutedHandler (examplePost "mention")).w
      ∧ (ServeHTTP exampleLib flakyHandler (examplePost "mention")).posts
          = (ServeHTTP exampleLib mutedHandler (examplePost "mention")).posts :=
  ⟨(ServeHTTP_reply_failure exampleLib mutedHandler (examplePost "mention") quoteMention
      (replyMessage exampleLib quoteMention
        [{ exampleFake.BaseQuote with Symbol := "DOCN" },
         { exampleFake.BaseQuote with Symbol := "AAPL" },
         { exampleFake.BaseQuote with Symbol := "GOOG" }])
      (.other "slack server error") ⟨mentionEvent quoteMention, rfl, rfl, rfl, rfl⟩
      (by decide) rfl).2.2.2.1,
    by decide, by decide, by decide, by decide⟩

/-- C5: in a mention delivery whose text yields at least one candidate symbol
and whose backend call fails with error `e`, the handler makes no outbound call,
neither the reply nor the apology, and answers 500 with the message
"getting quotes: " followed by the message of `e`; the backend is called once,
with the whole list of candidate symbols. -/
theorem ServeHTTP_backend_failure (lib : Lib) (h : eventHandler) (r : Request)
    (m : AppMentionEvent) (e : LibError) (hmen : IsMention lib h r m)
    (hs : filterPossibleSymbols (stringsFields m.Text) ≠ [])
    (hb : h.marketBackend.Quote (filterPossibleSymbols (stringsFields m.Text)) = .error e) :
    (ServeHTTP lib h r).posts = []
      ∧ (ServeHTTP lib h r).quotes = [filterPossibleSymbols (stringsFields m.Text)]
      ∧ (ServeHTTP lib h r).w.status = 500
      ∧ (ServeHTTP lib h r).w.body
          = encodeErrorResponse { StatusCode := 500, Error := "getting quotes: " ++ e.Error }
      ∧ (ServeHTTP lib h r).panicked = false := by
  have hcalls := validateRequest_calls lib h r
  rw [ServeHTTP_mention lib h r m hmen]
  rcases serveAppMention_cases lib h r _ m hcalls.1 hcalls.2 with
    ⟨hnil, -⟩ | ⟨quotes, -, hok, -⟩ | ⟨e2, -, herr, hw, hposts, hquotes, hpan⟩
  · exact absurd hnil hs
  · rw [hb] at hok; cases hok
  · rw [hb] at herr
    cases herr
    rw [hw, hposts, hquotes]
    exact ⟨rfl, rfl, rfl, freshWriter_respond_body _ _, hpan⟩

theorem ServeHTTP_backend_failure_witness :
    (ServeHTTP exampleLib blindHandler (examplePost "mention")).posts = []
      ∧ (ServeHTTP exampleLib blindHandler (examplePost "mention")).quotes
          = [["DOCN", "AAPL", "GOOG"]]
      ∧ (ServeHTTP exampleLib blindHandler (examplePost "mention")).w.body
          = "\x7b\"status_code\":500,\"error\":\"getting quotes: remote error\"\x7d\n" :=
  ⟨(ServeHTTP_backend_failure exampleLib blindHandler (examplePost "mention") quoteMention
      (.other "remote error") ⟨mentionEvent quoteMention, rfl, rfl, rfl, rfl⟩
      (by decide) rfl).1,
    by decide, by decide⟩

/-- C6: in a mention delivery whose text yields no candidate symbol the backend
is never called, and the first outbound call is the fixed plain text "no valid
market symbols" message, not a block message, to the channel and thread of the
mention; when that call succeeds it is the only one and the answer is 200 with
the empty object, so the case is not an error. -/
theorem ServeHTTP_no_symbols (lib : Lib) (h : eventHandler) (r : Request)
    (m : AppMentionEvent) (hmen : IsMention lib h r m)
    (hs : filterPossibleSymbols (stringsFields m.Text) = []) :
    (ServeHTTP lib h r).quotes = []
      ∧ (ServeHTTP lib h r).posts.head?
          = some
              { channel := m.Channel,
                content := .text
                  "Sorry, I didn\x27t find any valid market symbols in your message. :cry:" false,
                ts := m.TimeStamp, broadcast := true }
      ∧ (h.slackClient.PostMessageContext []
            { channel := m.Channel,
              content := .text
                "Sorry, I didn\x27t find any valid market symbols in your message. :cry:" false,
              ts := m.TimeStamp, broadcast := true } = none →
          (ServeHTTP lib h r).posts.length = 1 ∧ (ServeHTTP lib h r).w.status = 200
            ∧ (ServeHTTP lib h r).w.body = "\x7b\x7d")
      ∧ (ServeHTTP lib h r).panicked = false := by
  have hcalls := validateRequest_calls lib h r
  rw [ServeHTTP_mention lib h r m hmen]
  rcases serveAppMention_cases lib h r _ m hcalls.1 hcalls.2 with
    ⟨-, heq⟩ | ⟨quotes, hne, -, -⟩ | ⟨e2, hne, -, -⟩
  · rw [heq]
    have hreply : replyMessage lib m []
        = { channel := m.Channel,
            content := .text
              "Sorry, I didn\x27t find any valid market symbols in your message. :cry:" false,
            ts := m.TimeStamp, broadcast := true } := rfl
    rw [← hreply]
    refine ⟨?_, postReply_posts_head lib h r _ m [] hcalls.2, ?_, ?_⟩
    · cases hc : h.slackClient.PostMessageContext [] (replyMessage lib m []) with
      | some e => rw [(postReply_fail lib h r _ m [] e hc).2.2.1, hcalls.1]
      | none => rw [(postReply_ok lib h r _ m [] hc).2.2.1, hcalls.1]
    · intro hc
      obtain ⟨hw, hposts, -, -⟩ := postReply_ok lib h r _ m [] hc
      rw [hw, hposts, hcalls.2]
      refine ⟨rfl, rfl, ?_⟩
      simp [freshWriter, ResponseWriter.Write, ResponseWriter.WriteHeader,
        ResponseWriter.headerSet]
    · cases hc : h.slackClient.PostMessageContext [] (replyMessage lib m []) with
      | some e => exact (postReply_fail lib h r _ m [] e hc).2.2.2
      | none => exact (postReply_ok lib h r _ m [] hc).2.2.2
  · exact absurd hs hne
  · exact absurd hs hne

theorem ServeHTTP_no_symbols_witness :
    (ServeHTTP exampleLib openHandler (examplePost "hello")).quotes = []
      ∧ (ServeHTTP exampleLib openHandler (examplePost "hello")).posts
          = [{ channel := "C0LAN2Q65",
               content := .text
                 "Sorry, I didn\x27t find any valid market symbols in your message. :cry:" false,
               ts := "1515449483.000108", broadcast := true }]
      ∧ (ServeHTTP exampleLib openHandler (examplePost "hello")).w.status = 200 :=
  ⟨(ServeHTTP_no_symbols exampleLib openHandler (examplePost "hello") helloMention
      ⟨mentionEvent helloMention, rfl, rfl, rfl, rfl⟩ (by decide)).1,
    by decide,
    ((ServeHTTP_no_symbols exampleLib openHandler (examplePost "hello") helloMention
      ⟨mentionEvent helloMention, rfl, rfl, rfl, rfl⟩ (by decide)).2.2.1 rfl).2.1⟩

theorem describedBlocks_mem (lib : Lib) :
    ∀ (qs : List Quote) (q : Quote), q ∈ qs → quoteHeader q ∈ describedBlocks lib qs
  | [], _, hq => by simp at hq
  | [q1], q, hq => by
    have : q = q1 := by simpa using hq
    simp [describedBlocks, this]
  | q1 :: q2 :: qs, q, hq => by
    rcases List.mem_cons.1 hq with rfl | hq
    · simp [describedBlocks]
    · have ih := describedBlocks_mem lib (q2 :: qs) q hq
      simp only [describedBlocks] at ih ⊢
      exact List.mem_cons_of_mem _ (List.mem_cons_of_mem _ (List.mem_cons_of_mem _ ih))

theorem symbol_in_header (q : Quote) :
    q.Symbol.data <:+: (q.ShortName ++ " (" ++ q.Symbol ++ ")").data :=
  ⟨(q.ShortName ++ " (").data, ")".data, by simp [String.data_append]⟩

/-- What `FakeBackend.Quote` returns: one quote per symbol, in order, carrying
it; so every requested symbol has its quote. -/
theorem FakeBackend_Quote_symbols (f : FakeBackend) (symbols : List String) :
    ∃ quotes, f.Quote symbols = .ok quotes ∧ quotes.map Quote.Symbol = symbols
      ∧ ∀ s ∈ symbols, ∃ q ∈ quotes, q.Symbol = s := by
  have key : ∀ (l : List String) (acc : List Quote),
      (l.foldl (fun quotes s => quotes ++ [{ f.BaseQuote with Symbol := s }]) acc).map
        Quote.Symbol = acc.map Quote.Symbol ++ l := by
    intro l
    induction l with
    | nil => intro acc; simp
    | cons s l ih => intro acc; simp [ih]
  refine ⟨_, rfl, by simpa using key symbols [], ?_⟩
  intro s hs
  have hmap := key symbols []
  simp only [List.map_nil, List.nil_append] at hmap
  rw [← hmap] at hs
  obtain ⟨q, hq, rfl⟩ := List.mem_map.1 hs
  exact ⟨q, hq, rfl⟩

/-- C7: in a mention delivery whose text yields at least one candidate symbol,
with a backend that returns one quote per requested symbol carrying that symbol
and a Slack client whose call succeeds, the backend is asked once for the whole
list, exactly one outbound call is made, a block message to the channel and
thread of the mention which has for every requested symbol a header block whose
text contains it, and the answer is 200 with body `{}`. -/
theorem ServeHTTP_quotes_reply (lib : Lib) (h : eventHandler) (r : Request)
    (m : AppMentionEvent) (quotes : List Quote) (hmen : IsMention lib h r m)
    (hs : filterPossibleSymbols (stringsFields m.Text) ≠ [])
    (hb : h.marketBackend.Quote (filterPossibleSymbols (stringsFields m.Text)) = .ok quotes)
    (hsym : ∀ s ∈ filterPossibleSymbols (stringsFields m.Text), ∃ q ∈ quotes, q.Symbol = s)
    (hc : h.slackClient.PostMessageContext [] (replyMessage lib m quotes) = none) :
    (ServeHTTP lib h r).quotes = [filterPossibleSymbols (stringsFields m.Text)]
      ∧ (ServeHTTP lib h r).posts
          = [{ channel := m.Channel, content := .blocks (messageBlocks lib quotes),
               ts := m.TimeStamp, broadcast := true }]
      ∧ (∀ s ∈ filterPossibleSymbols (stringsFields m.Text),
          ∃ t, Block.headerBlock t ∈ messageBlocks lib quotes ∧ s.data <:+: t.text.data)
      ∧ (ServeHTTP lib h r).w.status = 200
      ∧ (ServeHTTP lib h r).w.body = "\x7b\x7d"
      ∧ (ServeHTTP lib h r).panicked = false := by
  have hcalls := validateRequest_calls lib h r
  have hlen : quotes.length ≠ 0 := by
    intro h0
    obtain ⟨s, hmem⟩ := List.exists_mem_of_ne_nil _ hs
    obtain ⟨q, hq, -⟩ := hsym s hmem
    rw [List.length_eq_zero.1 h0] at hq
    simp at hq
  have hreply : replyMessage lib m quotes
      = { channel := m.Channel, content := .blocks (messageBlocks lib quotes),
          ts := m.TimeStamp, broadcast := true } := by
    simp [replyMessage, hlen]
  rw [ServeHTTP_mention lib h r m hmen]
  rcases serveAppMention_cases lib h r _ m hcalls.1 hcalls.2 with
    ⟨hnil, -⟩ | ⟨quotes2, -, hok, heq⟩ | ⟨e2, -, herr, -⟩
  · exact absurd hnil hs
  · rw [hb] at hok
    cases hok
    rw [heq]
    obtain ⟨hw, hposts, hquotes, hpan⟩ := postReply_ok lib h r
      ((validateRequest lib h r).2 ++ [.quote (filterPossibleSymbols (stringsFields m.Text))])
      m quotes hc
    rw [hw, hposts, hquotes, filterMap_posted_quote _ _ hcalls.2,
      filterMap_quoted_quote _ _ hcalls.1, hreply]
    refine ⟨rfl, rfl, ?_, rfl, ?_, hpan⟩
    · intro s hmem
      obtain ⟨q, hq, rfl⟩ := hsym s hmem
      refine ⟨{ type := "plain_text", text := q.ShortName ++ " (" ++ q.Symbol ++ ")",
                emoji := false, verbatim := false }, ?_, symbol_in_header q⟩
      rw [messageBlocks_eq]
      exact List.mem_cons_of_mem _ (describedBlocks_mem lib quotes q hq)
    · simp [freshWriter, ResponseWriter.Write, ResponseWriter.WriteHeader,
        ResponseWriter.headerSet]
  · rw [hb] at herr; cases herr

theorem ServeHTTP_quotes_reply_witness :
    (ServeHTTP exampleLib openHandler (examplePost "mention")).posts.length = 1
      ∧ (ServeHTTP exampleLib openHandler (examplePost "mention")).quotes
          = [["DOCN", "AAPL", "GOOG"]]
      ∧ (ServeHTTP exampleLib openHandler (examplePost "mention")).w.status = 200
      ∧ (ServeHTTP exampleLib openHandler (examplePost "mention")).w.body = "\x7b\x7d" :=
  ⟨by decide,
    (ServeHTTP_quotes_reply exampleLib openHandler (examplePost "mention") quoteMention
      [{ exampleFake.BaseQuote with Symbol := "DOCN" },
       { exampleFake.BaseQuote with Symbol := "AAPL" },
       { exampleFake.BaseQuote with Symbol := "GOOG" }]
      ⟨mentionEvent quoteMention, rfl, rfl, rfl, rfl⟩ (by decide) rfl (by decide) rfl).1,
    by decide, by decide⟩

end Stonks
